import Mathlib

/-!
# Verification of the govtrack core (entity / relation / similarity engine)

This file is a shallow embedding, in Lean 4, of the core modules of the
govtrack repository:

* `src/core/entity.js`   — entity CRUD, validation, history, close
* `src/core/relation.js` — link, cycle detection (BFS), blocked status
* `src/core/id.js`       — slug generation and uniquification
* `src/core/ai.js`       — keyword classification and Jaccard similarity
* `src/core/storage.js`  — the JSONL record store (modelled as a `List Entity`)

Modelling conventions:

* The on-disk JSONL store is a `List Entity` threaded explicitly; a mutating
  operation returns `Except Err A × List Entity`, pairing the result (or the
  raised error) with the store as it stands when the operation returns.
* JavaScript `throw` sites are mapped to the error taxonomy of the
  specification (ValidationError / NotFoundError / ConflictError / CycleError);
  the constructors of `Err` name these kinds.  The self-reference rejection in
  `link` gets its own constructor.
* JavaScript numbers are modelled as `Int` where they hold integers and as
  `ℚ` where they hold ratios (similarity scores, confidence, coordinates).
  `Math.round` is modelled as the floor of `x + 1/2`, which agrees with it on
  the nonnegative values that occur here.
* JavaScript string functions (`toLowerCase`, `trim`, `includes`,
  `split(/\s+/)`, regex replaces) are reimplemented character-exactly for the
  ASCII range on `List Char`.
* `Date.now` timestamps and the randomized outputs of `generateId` /
  `randomBytes` are nondeterministic inputs and are passed as parameters
  (`now`, `freshId`, `fallbackHex`).
* JavaScript `Set` objects are modelled as `Finset` values; only their
  cardinalities are consumed by the embedded code.
* `new Set(...).size` based counting, object spread merges, and the
  `undefined` / present distinction of update payloads are modelled with
  `Option` fields (`none` = key absent).
-/

/-! ## JavaScript string primitives -/

/-- ASCII whitespace characters matched by the JavaScript `\s` class
(the non-ASCII members are irrelevant to this code base). -/
def isJsWs (c : Char) : Bool :=
  c = ' ' || c = '\t' || c = '\n' || c = '\r' || c = '\x0b' || c = '\x0c'

/-- Characters matched by the JavaScript `\w` class. -/
def isWordChar (c : Char) : Bool :=
  c.isAlphanum || c = '_'

/-- Characters kept by `generateSlug` (the complement of `[^a-z0-9]`). -/
def isSlugChar (c : Char) : Bool :=
  (('a' ≤ c && c ≤ 'z') : Bool) || c.isDigit

/-- JavaScript `String.prototype.toLowerCase` on the ASCII range. -/
def jsToLower (s : String) : String :=
  ⟨s.data.map Char.toLower⟩

/-- JavaScript `String.prototype.trim` on a character list. -/
def jsTrimList (l : List Char) : List Char :=
  ((l.dropWhile isJsWs).reverse.dropWhile isJsWs).reverse

/-- JavaScript `String.prototype.trim`. -/
def jsTrim (s : String) : String :=
  ⟨jsTrimList s.data⟩

/-- Prefix test on character lists (helper for `jsIncludes`). -/
def hasPrefixL : List Char → List Char → Bool
  | [], _ => true
  | _ :: _, [] => false
  | a :: as, b :: bs => a = b && hasPrefixL as bs

/-- Infix test on character lists (helper for `jsIncludes`). -/
def hasInfixL (needle : List Char) : List Char → Bool
  | [] => needle.isEmpty
  | c :: rest => hasPrefixL needle (c :: rest) || hasInfixL needle rest

/-- JavaScript `String.prototype.includes`. -/
def jsIncludes (hay needle : String) : Bool :=
  hasInfixL needle.data hay.data

/-- One pass of the regex replace `replace(/\s+/g, ' ')`: the flag records
whether the previous character belonged to a whitespace run already replaced. -/
def collapseWsAux : Bool → List Char → List Char
  | _, [] => []
  | prevWs, c :: rest =>
    if isJsWs c then
      if prevWs then collapseWsAux true rest
      else ' ' :: collapseWsAux true rest
    else c :: collapseWsAux false rest

mutual
/-- JavaScript `split(/\s+/)`: accumulate the current token until whitespace. -/
def splitWsAux : List Char → List Char → List (List Char)
  | [], acc => [acc.reverse]
  | c :: rest, acc =>
    if isJsWs c then acc.reverse :: splitWsSkip rest
    else splitWsAux rest (c :: acc)

/-- JavaScript `split(/\s+/)`: consume the remainder of a whitespace run. -/
def splitWsSkip : List Char → List (List Char)
  | [] => [[]]
  | c :: rest =>
    if isJsWs c then splitWsSkip rest
    else splitWsAux rest [c]
end

/-- JavaScript `str.split(/\s+/)` as a list of strings. -/
def jsSplitWs (s : String) : List String :=
  (splitWsAux s.data []).map fun l => (⟨l⟩ : String)

/-- JavaScript `Math.round` on the nonnegative rationals produced by this
code: round half up. -/
def jsRound (q : ℚ) : ℤ :=
  ⌊q + 1/2⌋

/-! ## `src/core/ai.js` — classification and similarity -/

/-- `TYPE_KEYWORDS.goal` from the source. -/
def goalKeywords : List String :=
  ["improve", "increase", "reduce", "enhance", "promote", "ensure",
   "achieve", "establish", "create", "build", "develop", "maintain",
   "safe", "sustainable", "accessible", "affordable", "efficient",
   "vision", "objective", "target", "aim", "aspiration"]

/-- `TYPE_KEYWORDS.problem` from the source. -/
def problemKeywords : List String :=
  ["broken", "damaged", "issue", "problem", "complaint", "concern",
   "pothole", "graffiti", "noise", "pollution", "crime", "dangerous",
   "unsafe", "blocked", "flooded", "cracked", "missing", "faulty",
   "abandoned", "neglected", "deteriorating", "overcrowded"]

/-- `TYPE_KEYWORDS.idea` from the source. -/
def ideaKeywords : List String :=
  ["suggest", "propose", "idea", "solution", "could", "should", "might",
   "consider", "implement", "install", "create", "establish", "introduce",
   "program", "initiative", "pilot", "project", "scheme", "plan"]

/-- `TYPE_KEYWORDS.action` from the source. -/
def actionKeywords : List String :=
  ["task", "action", "do", "complete", "fix", "repair", "install",
   "remove", "clean", "paint", "replace", "update", "review", "inspect",
   "schedule", "assign", "deadline", "responsible", "priority"]

/-- The per-type keyword counting loop of `classifyText`: each keyword that
occurs as a substring of the lowercased text contributes one point. -/
def scoreFor (lowerText : String) (keywords : List String) : Nat :=
  (keywords.filter fun kw => jsIncludes lowerText kw).length

/-- The `scores` object of `classifyText` (insertion order goal, problem,
idea, action). -/
structure Scores where
  goal : Nat
  problem : Nat
  idea : Nat
  action : Nat
deriving DecidableEq, Repr

/-- Result record of `classifyText` (the `reasoning` and `suggestions` fields,
which are presentation data derived from the same scores, are not modelled). -/
structure Classification where
  type : String
  confidence : ℚ
  scores : Scores
deriving DecidableEq, Repr

/-- The argmax loop of `classifyText`, with accumulators `bestType`
(initially `"idea"`), `bestScore` (initially 0) and `totalScore`
(initially 0); only a strictly greater score replaces the best. -/
def classifyLoop : List (String × Nat) → String → Nat → Nat → String × Nat × Nat
  | [], bestType, bestScore, totalScore => (bestType, bestScore, totalScore)
  | p :: rest, bestType, bestScore, totalScore =>
    if p.2 > bestScore then classifyLoop rest p.1 p.2 (totalScore + p.2)
    else classifyLoop rest bestType bestScore (totalScore + p.2)

/-- The `scores` object computed by `classifyText`. -/
def classifyScores (text : String) : Scores :=
  { goal := scoreFor (jsToLower text) goalKeywords
    problem := scoreFor (jsToLower text) problemKeywords
    idea := scoreFor (jsToLower text) ideaKeywords
    action := scoreFor (jsToLower text) actionKeywords }

/-- The `(bestType, bestScore, totalScore)` accumulators of `classifyText`
after its argmax loop. -/
def classifyBest (text : String) : String × Nat × Nat :=
  classifyLoop
    [("goal", (classifyScores text).goal), ("problem", (classifyScores text).problem),
     ("idea", (classifyScores text).idea), ("action", (classifyScores text).action)]
    "idea" 0 0

/-- `classifyText` from `src/core/ai.js`. -/
def classifyText (text : String) : Classification :=
  { type := (classifyBest text).1
    confidence :=
      (jsRound ((if (classifyBest text).2.2 > 0 then
          ((classifyBest text).2.1 : ℚ) / ((classifyBest text).2.2 : ℚ)
        else 1/4) * 100) : ℚ) / 100
    scores := classifyScores text }

/-- The maximum of the four scores. -/
def natMax4 (g p i a : Nat) : Nat :=
  Nat.max (Nat.max g p) (Nat.max i a)

/-- The argmax with ties broken by the enumeration order goal, problem, idea,
action, defaulting to idea when every score is zero — the tie-breaking rule
stated by the specification. -/
def classifyRefType (g p i a : Nat) : String :=
  if g + p + i + a = 0 then "idea"
  else if g = natMax4 g p i a then "goal"
  else if p = natMax4 g p i a then "problem"
  else if i = natMax4 g p i a then "idea"
  else "action"

/-- The reference definition of classification stated by the specification:
each score counts case-insensitive keyword-substring matches, the type is the
argmax with ties broken by the enumeration order goal, problem, idea, action
(defaulting to idea when every score is zero), and the confidence is
`bestScore / totalScore` (`0.25` when every score is zero), with no rounding. -/
def classifyRef (text : String) : Classification :=
  { type := classifyRefType (classifyScores text).goal (classifyScores text).problem
      (classifyScores text).idea (classifyScores text).action
    confidence :=
      if (classifyScores text).goal + (classifyScores text).problem +
          (classifyScores text).idea + (classifyScores text).action = 0 then 1/4
      else (natMax4 (classifyScores text).goal (classifyScores text).problem
          (classifyScores text).idea (classifyScores text).action : ℚ) /
        ((classifyScores text).goal + (classifyScores text).problem +
          (classifyScores text).idea + (classifyScores text).action : ℚ)
    scores := classifyScores text }

/-- `normalizeText` from `src/core/ai.js`: lowercase, strip `[^\w\s]`,
collapse whitespace runs to single spaces, trim. -/
def normalizeText (text : String) : String :=
  ⟨jsTrimList (collapseWsAux false
    ((jsToLower text).data.filter fun c => isWordChar c || isJsWs c))⟩

/-- The word set built by `calculateSimilarity` from one input
(`new Set(normalizeText(t).split(/\s+/))`); only its cardinality and
memberships are consumed, so a `Finset` is a faithful model. -/
def tokenSet (text : String) : Finset String :=
  (jsSplitWs (normalizeText text)).toFinset

/-- `calculateSimilarity` from `src/core/ai.js` (Jaccard coefficient).
The guard `!text1 || !text2` is string falsiness, i.e. emptiness. -/
def calculateSimilarity (text1 text2 : String) : ℚ :=
  if text1 = "" ∨ text2 = "" then 0
  else if (tokenSet text1 ∪ tokenSet text2).card = 0 then 0
  else ((tokenSet text1 ∩ tokenSet text2).card : ℚ) / ((tokenSet text1 ∪ tokenSet text2).card : ℚ)

/-! ## `src/core/id.js` — slugs -/

/-- The regex replace `replace(/[^a-z0-9]+/g, '-')`: every maximal run of
non-alphanumeric characters becomes a single hyphen; the flag records whether
the previous character belonged to such a run. -/
def collapseNonAlnumAux : Bool → List Char → List Char
  | _, [] => []
  | prevHyph, c :: rest =>
    if isSlugChar c then c :: collapseNonAlnumAux false rest
    else if prevHyph then collapseNonAlnumAux true rest
    else '-' :: collapseNonAlnumAux true rest

/-- The regex replace `replace(/^-|-$/g, '')`: one leading and one trailing
hyphen are removed (runs cannot occur after the previous replace). -/
def trimEdgeHyphens (l : List Char) : List Char :=
  let l1 := match l with
    | '-' :: rest => rest
    | other => other
  if l1.getLast? = some '-' then l1.dropLast else l1

/-- `generateSlug` from `src/core/id.js`. -/
def generateSlug (name : String) : String :=
  ⟨(trimEdgeHyphens (collapseNonAlnumAux false
      (jsTrimList (jsToLower name).data))).take 100⟩

/-- The `while (counter < 1000)` loop of `makeSlugUnique`, with the structural
fuel `1000 - counter`; when the fuel runs out the random fallback suffix
(passed in as `fallbackHex`, the hex rendering of `randomBytes(3)`) is used. -/
def slugLoop (baseSlug : String) (existsCheck : String → Bool) (fallbackHex : String) :
    Nat → Nat → String
  | _, 0 => baseSlug ++ "-" ++ fallbackHex
  | counter, fuel + 1 =>
    if existsCheck (baseSlug ++ "-" ++ toString counter) then
      slugLoop baseSlug existsCheck fallbackHex (counter + 1) fuel
    else baseSlug ++ "-" ++ toString counter

/-- `makeSlugUnique` from `src/core/id.js`; the loop runs for counters
2, 3, …, 999 (998 iterations) before falling back. -/
def makeSlugUnique (baseSlug : String) (existsCheck : String → Bool)
    (fallbackHex : String) : String :=
  if existsCheck baseSlug then slugLoop baseSlug existsCheck fallbackHex 2 998
  else baseSlug

/-! ## `src/core/entity.js` — data model -/

/-- A typed outgoing edge as stored on the source entity. -/
structure Relation where
  type : String
  target : String
deriving DecidableEq, Repr

/-- The JSON values that occur as `old_value` / `new_value` in history
entries: strings, numbers, `null`, and relation arrays. -/
inductive JVal where
  | nul : JVal
  | str : String → JVal
  | num : Int → JVal
  | rels : List Relation → JVal
deriving DecidableEq, Repr

/-- A nullable string as a history value. -/
def jvalOfOptStr : Option String → JVal
  | none => JVal.nul
  | some s => JVal.str s

/-- One element of an entity history array. -/
structure HistEntry where
  timestamp : String
  action : String
  field : Option String := none
  old_value : Option JVal := none
  new_value : Option JVal := none
deriving DecidableEq, Repr

/-- A problem location (each component independently optional). -/
structure Location where
  address : Option String := none
  lat : Option ℚ := none
  lng : Option ℚ := none
deriving DecidableEq, Repr

/-- An entity record as stored in `entities.jsonl`.  The type-specific fields
are `Option`-valued: `none` models the key being absent for other types. -/
structure Entity where
  id : String
  type : String
  title : String := ""
  body : Option String := none
  priority : Int := 2
  status : String := ""
  gov_id : Option String := none
  relations : List Relation := []
  metadata : List (String × String) := []
  created_at : String := ""
  updated_at : String := ""
  closed_at : Option String := none
  history : List HistEntry := []
  location : Option Location := none
  report_count : Option Int := none
  supporters : Option (List String) := none
  support_count : Option Int := none
  similar_ideas : Option (List String) := none
  ai_classification : Option String := none
  assignee : Option String := none
  due_date : Option String := none
deriving DecidableEq, Repr

/-- The error taxonomy of the specification; each JavaScript `throw` site of
the embedded modules is mapped to the kind its message describes
(ValidationError, NotFoundError, ConflictError, CycleError), and the
unconditional self-reference rejection of `link` gets its own kind. -/
inductive Err where
  | validation : Err
  | notFound : Err
  | conflict : Err
  | cycle : Err
  | selfReference : Err
deriving DecidableEq, Repr

/-- `ENTITY_TYPES` from the source. -/
def ENTITY_TYPES : List String := ["goal", "problem", "idea", "action"]

/-- `ENTITY_STATUSES` from the source, as a lookup. -/
def ENTITY_STATUSES (type : String) : Option (List String) :=
  if type = "goal" then some ["active", "deprecated"]
  else if type = "problem" then
    some ["unacknowledged", "acknowledged", "being_addressed", "resolved"]
  else if type = "idea" then
    some ["proposed", "under_review", "accepted", "rejected", "superseded"]
  else if type = "action" then
    some ["open", "in_progress", "blocked", "completed", "cancelled"]
  else none

/-- The declared source/target entity types of a relation type. -/
structure RelDef where
  fromType : String
  toType : String
deriving DecidableEq, Repr

/-- `RELATION_TYPES` from the source. -/
def RELATION_TYPES : List (String × RelDef) :=
  [("threatens", ⟨"problem", "goal"⟩),
   ("addresses", ⟨"idea", "problem"⟩),
   ("pursues", ⟨"idea", "goal"⟩),
   ("complements", ⟨"idea", "idea"⟩),
   ("conflicts", ⟨"idea", "idea"⟩),
   ("requires", ⟨"idea", "idea"⟩),
   ("similar", ⟨"idea", "idea"⟩),
   ("duplicate", ⟨"idea", "idea"⟩),
   ("supersedes", ⟨"idea", "idea"⟩),
   ("alternative", ⟨"idea", "idea"⟩),
   ("extends", ⟨"idea", "idea"⟩),
   ("implements", ⟨"action", "idea"⟩),
   ("depends_on", ⟨"action", "action"⟩),
   ("blocks", ⟨"action", "action"⟩)]

/-- Lookup in `RELATION_TYPES`. -/
def relationDefFor (t : String) : Option RelDef :=
  (RELATION_TYPES.find? fun p => p.1 == t).map Prod.snd

/-- `PRIORITIES` from the source. -/
def PRIORITIES : List Int := [0, 1, 2, 3, 4]

/-- The terminal-status list used by `update` to set `closed_at`
(note: it does not contain `accepted`). -/
def updateTerminalStatuses : List String :=
  ["resolved", "completed", "cancelled", "deprecated", "rejected", "superseded"]

/-- The terminal-status list used by `isBlocked`
(note: it contains `accepted` but not `superseded`). -/
def blockedTerminalStatuses : List String :=
  ["completed", "resolved", "accepted", "cancelled", "deprecated", "rejected"]

/-- An organizational unit record.

Modelled from the spec: the government module (`src/core/government.js`) is
not part of the provided sources; per specification section 6 it exposes
`find(idOrSlug)` resolving either an opaque id or a human slug. -/
structure Gov where
  id : String
  slug : String
deriving DecidableEq, Repr

/-- Modelled from the spec: `government.find` resolves an id or a slug to an
organizational unit, returning null when neither matches. -/
def govFind (gs : List Gov) (q : String) : Option Gov :=
  gs.find? fun g => g.id == q || g.slug == q

/-! ## `src/core/storage.js` — the record store -/

/-- `storage.findById`: first record with the given id. -/
def findById (st : List Entity) (id : String) : Option Entity :=
  st.find? fun r => r.id == id

/-- The field set a successful `update` merges into the stored record
(the keys present on the JavaScript `allowedUpdates` object). -/
structure Allowed where
  title : Option String := none
  body : Option (Option String) := none
  status : Option String := none
  closed_at : Option (Option String) := none
  priority : Option Int := none
  gov_id : Option (Option String) := none
  relations : Option (List Relation) := none
  location : Option (Option Location) := none
  assignee : Option (Option String) := none
  due_date : Option (Option String) := none
  support_count : Option (Option Int) := none
  supporters : Option (Option (List String)) := none
  ai_classification : Option (Option String) := none
  metadata : Option (List (String × String)) := none
  history : Option (List HistEntry) := none
deriving DecidableEq, Repr

/-- The record merge `{...record, ...updates, updated_at: now}` performed by
`storage.updateRecord`. -/
def applyUpdates (record : Entity) (updates : Allowed) (now : String) : Entity :=
  { record with
    title := updates.title.getD record.title
    body := updates.body.getD record.body
    status := updates.status.getD record.status
    closed_at := updates.closed_at.getD record.closed_at
    priority := updates.priority.getD record.priority
    gov_id := updates.gov_id.getD record.gov_id
    relations := updates.relations.getD record.relations
    location := updates.location.getD record.location
    assignee := updates.assignee.getD record.assignee
    due_date := updates.due_date.getD record.due_date
    support_count := updates.support_count.getD record.support_count
    supporters := updates.supporters.getD record.supporters
    ai_classification := updates.ai_classification.getD record.ai_classification
    metadata := updates.metadata.getD record.metadata
    history := updates.history.getD record.history
    updated_at := now }

/-- `storage.updateRecord`: every record with the id is merged (`found` ends
up as the last match); when no record matches, nothing is rewritten. -/
def updateRecord (st : List Entity) (id : String) (updates : Allowed) (now : String) :
    Option Entity × List Entity :=
  match ((st.filter fun r => r.id == id).getLast?).map
      (fun r => applyUpdates r updates now) with
  | some f => (some f, st.map fun r => if r.id == id then applyUpdates r updates now else r)
  | none => (none, st)

/-! ## `src/core/entity.js` — validation -/

/-- `validateTitle` (string falsiness models the `!title` guard). -/
def validateTitle (title : String) : Except Err Unit :=
  if title = "" then .error .validation
  else if title.length > 500 then .error .validation
  else .ok ()

/-- `validateBody` (`body && body.length > 10000`). -/
def validateBody : Option String → Except Err Unit
  | none => .ok ()
  | some b => if b ≠ "" ∧ b.length > 10000 then .error .validation else .ok ()

/-- `validateType`. -/
def validateType (type : String) : Except Err Unit :=
  if type ∈ ENTITY_TYPES then .ok () else .error .validation

/-- `validateStatus`: only checked when the type has a status enum. -/
def validateStatus (status : String) (type : String) : Except Err Unit :=
  match ENTITY_STATUSES type with
  | some validStatuses => if status ∈ validStatuses then .ok () else .error .validation
  | none => .ok ()

/-- The accepted priority spellings: a number, or a string matching
`/^P?(\d)$/i`. -/
inductive PriorityIn where
  | num : Int → PriorityIn
  | str : String → PriorityIn
deriving DecidableEq, Repr

/-- The regex `/^P?(\d)$/i` of `validatePriority`. -/
def parsePriorityStr (s : String) : Option Int :=
  match s.data with
  | [c] => if c.isDigit then some ((c.toNat : Int) - 48) else none
  | [p, c] =>
    if (p = 'P' || p = 'p') && c.isDigit then some ((c.toNat : Int) - 48) else none
  | _ => none

/-- `validatePriority`: a string that does not match the regex stays a string
and therefore fails the membership test, as in the source. -/
def validatePriority : PriorityIn → Except Err Int
  | .num n => if n ∈ PRIORITIES then .ok n else .error .validation
  | .str s =>
    match parsePriorityStr s with
    | some n => if n ∈ PRIORITIES then .ok n else .error .validation
    | none => .error .validation

/-- `validateLocation`: each present component is validated independently and
the result is null when no component survives (an empty address string is
falsy and skipped, as in the source). -/
def validateLocation : Option Location → Except Err (Option Location)
  | none => .ok none
  | some loc =>
    let addrStep : Except Err (Option String) :=
      match loc.address with
      | none => .ok none
      | some a =>
        if a = "" then .ok none
        else if a.length > 500 then .error .validation
        else .ok (some a)
    match addrStep with
    | .error e => .error e
    | .ok address =>
      let latStep : Except Err (Option ℚ) :=
        match loc.lat with
        | none => .ok none
        | some v => if v < -90 ∨ v > 90 then .error .validation else .ok (some v)
      match latStep with
      | .error e => .error e
      | .ok lat =>
        let lngStep : Except Err (Option ℚ) :=
          match loc.lng with
          | none => .ok none
          | some v => if v < -180 ∨ v > 180 then .error .validation else .ok (some v)
        match lngStep with
        | .error e => .error e
        | .ok lng =>
          if address = none ∧ lat = none ∧ lng = none then .ok none
          else .ok (some { address := address, lat := lat, lng := lng })

/-- `validateRelation`: shape check, relation-type lookup, source-type match,
target existence, target-type match — in source order. -/
def validateRelation (st : List Entity) (relation : Relation) (sourceType : String) :
    Except Err Relation :=
  if relation.type = "" ∨ relation.target = "" then .error .validation
  else
    match relationDefFor relation.type with
    | none => .error .validation
    | some relationDef =>
      if relationDef.fromType ≠ sourceType then .error .validation
      else
        match findById st relation.target with
        | none => .error .notFound
        | some target =>
          if relationDef.toType ≠ target.type then .error .validation
          else .ok { type := relation.type, target := relation.target }

/-- The gov-reference resolution shared by `create` and `update`
(falsy values resolve to null without a lookup). -/
def resolveGov (gs : List Gov) : Option String → Except Err (Option String)
  | none => .ok none
  | some q =>
    if q = "" then .ok none
    else
      match govFind gs q with
      | none => .error .notFound
      | some gov => .ok (some gov.id)

/-- JavaScript `x?.trim() || null` on an optional string. -/
def jsTrimOrNull : Option String → Option String
  | none => none
  | some s => if jsTrim s = "" then none else some (jsTrim s)

/-- JavaScript `x || d` on an optional integer (0 is falsy). -/
def jsOrInt (o : Option Int) (d : Int) : Int :=
  match o with
  | some n => if n = 0 then d else n
  | none => d

/-- JavaScript string-field truthiness: an absent or empty string is falsy. -/
def strOpt : Option String → Option String
  | none => none
  | some s => if s = "" then none else some s

/-! ## `src/core/entity.js` — update -/

/-- The fields an `update` call may carry (`none` = key absent; an inner
`Option` distinguishes an explicit null value from a proper value). -/
structure UpdateInput where
  title : Option String := none
  body : Option (Option String) := none
  status : Option String := none
  priority : Option PriorityIn := none
  gov_id : Option (Option String) := none
  relations : Option (List Relation) := none
  location : Option (Option Location) := none
  assignee : Option (Option String) := none
  due_date : Option (Option String) := none
  support_count : Option Int := none
  supporters : Option (List String) := none
  ai_classification : Option (Option String) := none
  metadata : Option (List (String × String)) := none
deriving DecidableEq, Repr

/-- The accumulating state of the `update` body: the `allowedUpdates` object
and the `historyEntries` array. -/
abbrev PlanAcc := Allowed × List HistEntry

/-- The title block of `update`. -/
def planTitle (entity : Entity) (u : UpdateInput) (now : String) (acc : PlanAcc) :
    Except Err PlanAcc :=
  match u.title with
  | none => .ok acc
  | some t =>
    match validateTitle t with
    | .error e => .error e
    | .ok _ =>
      .ok ({ acc.1 with title := some (jsTrim t) },
        acc.2 ++ [{ timestamp := now, action := "title_changed", field := some "title",
                    old_value := some (JVal.str entity.title),
                    new_value := some (JVal.str (jsTrim t)) }])

/-- The body block of `update` (note: it pushes no history entry). -/
def planBody (u : UpdateInput) (acc : PlanAcc) : Except Err PlanAcc :=
  match u.body with
  | none => .ok acc
  | some b =>
    match validateBody b with
    | .error e => .error e
    | .ok _ => .ok ({ acc.1 with body := some (jsTrimOrNull b) }, acc.2)

/-- The status block of `update`, including the `closed_at` toggling on the
terminal-status list. -/
def planStatus (entity : Entity) (u : UpdateInput) (now : String) (acc : PlanAcc) :
    Except Err PlanAcc :=
  match u.status with
  | none => .ok acc
  | some s =>
    match validateStatus s entity.type with
    | .error e => .error e
    | .ok _ =>
      let withStatus := { acc.1 with status := some s }
      let withClosed :=
        if s ∈ updateTerminalStatuses then { withStatus with closed_at := some (some now) }
        else if entity.closed_at.isSome then { withStatus with closed_at := some none }
        else withStatus
      .ok (withClosed,
        acc.2 ++ [{ timestamp := now, action := "status_changed", field := some "status",
                    old_value := some (JVal.str entity.status),
                    new_value := some (JVal.str s) }])

/-- The priority block of `update`. -/
def planPriority (entity : Entity) (u : UpdateInput) (now : String) (acc : PlanAcc) :
    Except Err PlanAcc :=
  match u.priority with
  | none => .ok acc
  | some p =>
    match validatePriority p with
    | .error e => .error e
    | .ok n =>
      .ok ({ acc.1 with priority := some n },
        acc.2 ++ [{ timestamp := now, action := "priority_changed", field := some "priority",
                    old_value := some (JVal.num entity.priority),
                    new_value := some (JVal.num n) }])

/-- The government-assignment block of `update`. -/
def planGov (gs : List Gov) (entity : Entity) (u : UpdateInput) (now : String)
    (acc : PlanAcc) : Except Err PlanAcc :=
  match u.gov_id with
  | none => .ok acc
  | some g =>
    match resolveGov gs g with
    | .error e => .error e
    | .ok govId =>
      .ok ({ acc.1 with gov_id := some govId },
        acc.2 ++ [{ timestamp := now,
                    action := if govId.isSome then "assigned" else "unassigned",
                    field := some "gov_id",
                    old_value := some (jvalOfOptStr entity.gov_id),
                    new_value := some (jvalOfOptStr govId) }])

/-- The relations block of `update`: every element of the new array is
re-validated. -/
def planRelations (st : List Entity) (entity : Entity) (u : UpdateInput) (now : String)
    (acc : PlanAcc) : Except Err PlanAcc :=
  match u.relations with
  | none => .ok acc
  | some rs =>
    match rs.mapM (fun rel => validateRelation st rel entity.type) with
    | .error e => .error e
    | .ok relations =>
      .ok ({ acc.1 with relations := some relations },
        acc.2 ++ [{ timestamp := now, action := "relations_changed",
                    field := some "relations",
                    old_value := some (JVal.rels entity.relations),
                    new_value := some (JVal.rels relations) }])

/-- The problem-location block of `update`. -/
def planLocation (entity : Entity) (u : UpdateInput) (acc : PlanAcc) :
    Except Err PlanAcc :=
  if entity.type = "problem" then
    match u.location with
    | none => .ok acc
    | some lraw =>
      match validateLocation lraw with
      | .error e => .error e
      | .ok v => .ok ({ acc.1 with location := some v }, acc.2)
  else .ok acc

/-- The action- and idea-specific passthrough blocks of `update`. -/
def planActionIdea (entity : Entity) (u : UpdateInput) (a : Allowed) : Allowed :=
  let a1 :=
    if entity.type = "action" then
      let x := match u.assignee with
        | some v => { a with assignee := some v }
        | none => a
      match u.due_date with
      | some v => { x with due_date := some v }
      | none => x
    else a
  if entity.type = "idea" then
    let y1 := match u.support_count with
      | some v => { a1 with support_count := some (some v) }
      | none => a1
    let y2 := match u.supporters with
      | some v => { y1 with supporters := some (some v) }
      | none => y1
    match u.ai_classification with
    | some v => { y2 with ai_classification := some v }
    | none => y2
  else a1

/-- The object-spread metadata merge `{...entity.metadata, ...updates.metadata}`
(keys of the update override; only the key-value mapping is relevant). -/
def mergeMeta (old new : List (String × String)) : List (String × String) :=
  (old.filter fun p => ¬ new.any fun q => q.1 == p.1) ++ new

/-- The metadata block of `update`. -/
def planMetadata (entity : Entity) (u : UpdateInput) (a : Allowed) : Allowed :=
  match u.metadata with
  | some m => { a with metadata := some (mergeMeta entity.metadata m) }
  | none => a

/-- The pure body of `update` between the entity lookup and the single
`storage.updateRecord` call, in source statement order. -/
def updatePlan (gs : List Gov) (st : List Entity) (entity : Entity) (u : UpdateInput)
    (now : String) : Except Err Allowed :=
  (planTitle entity u now ({}, [])).bind fun acc =>
  (planBody u acc).bind fun acc =>
  (planStatus entity u now acc).bind fun acc =>
  (planPriority entity u now acc).bind fun acc =>
  (planGov gs entity u now acc).bind fun acc =>
  (planRelations st entity u now acc).bind fun acc =>
  (planLocation entity u acc).bind fun acc =>
    let a1 := planActionIdea entity u acc.1
    let a2 := planMetadata entity u a1
    .ok (if acc.2 ≠ [] then { a2 with history := some (entity.history ++ acc.2) } else a2)

/-- The tail of `update` once the entity is found: run the validation plan,
then perform the single store rewrite. -/
def updateFound (gs : List Gov) (st : List Entity) (id : String) (entity : Entity)
    (u : UpdateInput) (now : String) : Except Err (Option Entity) × List Entity :=
  match updatePlan gs st entity u now with
  | .error e => (.error e, st)
  | .ok allowedUpdates =>
    (.ok (updateRecord st id allowedUpdates now).1,
     (updateRecord st id allowedUpdates now).2)

/-- `update` from `src/core/entity.js`: a missing entity returns null (not an
error); all validation happens in `updatePlan`; the store is touched only by
the final `updateRecord`. -/
def update (gs : List Gov) (st : List Entity) (id : String) (u : UpdateInput)
    (now : String) : Except Err (Option Entity) × List Entity :=
  match findById st id with
  | none => (.ok none, st)
  | some entity => updateFound gs st id entity u now

/-! ## `src/core/entity.js` — create, close, addRelation -/

/-- The payload of `create` (`none` = key absent). -/
structure CreateInput where
  title : String := ""
  body : Option String := none
  priority : Option PriorityIn := none
  status : Option String := none
  gov_id : Option String := none
  location : Option Location := none
  relations : Option (List Relation) := none
  metadata : Option (List (String × String)) := none
  report_count : Option Int := none
  supporters : Option (List String) := none
  support_count : Option Int := none
  similar_ideas : Option (List String) := none
  ai_classification : Option String := none
  assignee : Option String := none
  due_date : Option String := none
deriving DecidableEq, Repr

/-- The pure body of `create` before the single `appendRecord` call, in source
statement order.  `freshId` stands for the randomized result of `generateId`
(which never fails) and `now` for the creation timestamp. -/
def createPlan (gs : List Gov) (st : List Entity) (type : String) (data : CreateInput)
    (freshId now : String) : Except Err Entity :=
  (validateType type).bind fun _ =>
  (validateTitle data.title).bind fun _ =>
  (validateBody data.body).bind fun _ =>
  (resolveGov gs data.gov_id).bind fun govId =>
  (validatePriority (data.priority.getD (PriorityIn.num 2))).bind fun priority =>
  (if type = "problem" then validateLocation data.location else .ok none).bind fun location =>
  ((data.relations.getD []).mapM (fun rel => validateRelation st rel type)).bind fun relations =>
  let defaultStatus := ((ENTITY_STATUSES type).getD []).headD ""
  let entity : Entity :=
    { id := freshId
      type := type
      title := jsTrim data.title
      body := jsTrimOrNull data.body
      priority := priority
      status := (strOpt data.status).getD defaultStatus
      gov_id := govId
      relations := relations
      metadata := data.metadata.getD []
      created_at := now
      updated_at := now
      closed_at := none
      history := [{ timestamp := now, action := "created" }]
      location := if type = "problem" then location else none
      report_count := if type = "problem" then some (jsOrInt data.report_count 1) else none
      supporters := if type = "idea" then some (data.supporters.getD []) else none
      support_count := if type = "idea" then some (jsOrInt data.support_count 0) else none
      similar_ideas := if type = "idea" then some (data.similar_ideas.getD []) else none
      ai_classification := if type = "idea" then data.ai_classification else none
      assignee := if type = "action" then data.assignee else none
      due_date := if type = "action" then data.due_date else none }
  (match strOpt data.status with
   | some s => validateStatus s type
   | none => .ok ()).bind fun _ =>
  .ok entity

/-- `create` from `src/core/entity.js`: all validation happens in
`createPlan`; the store is touched only by the final `appendRecord`. -/
def create (gs : List Gov) (st : List Entity) (type : String) (data : CreateInput)
    (freshId now : String) : Except Err Entity × List Entity :=
  match createPlan gs st type data freshId now with
  | .error e => (.error e, st)
  | .ok entity => (.ok entity, st ++ [entity])

/-- Options of `close`. -/
structure CloseOptions where
  rejected : Bool := false
  cancelled : Bool := false
  reason : Option String := none
deriving DecidableEq, Repr

/-- The per-type canonical terminal status map of `close` (null for a type
outside the four-column model, in which case no status update is sent). -/
def closeStatusFor (type : String) (options : CloseOptions) : Option String :=
  if type = "goal" then some "deprecated"
  else if type = "problem" then some "resolved"
  else if type = "idea" then some (if options.rejected then "rejected" else "accepted")
  else if type = "action" then
    some (if options.cancelled then "cancelled" else "completed")
  else none

/-- The update payload `close` sends for a found entity. -/
def closeInput (entity : Entity) (options : CloseOptions) : UpdateInput :=
  { status := closeStatusFor entity.type options
    metadata := match options.reason with
      | some r => if r = "" then none else some [("close_reason", r)]
      | none => none }

/-- `close` from `src/core/entity.js`. -/
def close (gs : List Gov) (st : List Entity) (id : String) (options : CloseOptions)
    (now : String) : Except Err (Option Entity) × List Entity :=
  match findById st id with
  | none => (.ok none, st)
  | some entity => update gs st id (closeInput entity options) now

/-- The tail of `addRelation` once the source entity is found: validate the
edge, reject duplicates, then update the relations array. -/
def addRelationTo (gs : List Gov) (st : List Entity) (sourceId : String) (entity : Entity)
    (relationType targetId : String) (now : String) :
    Except Err (Option Entity) × List Entity :=
  match validateRelation st { type := relationType, target := targetId } entity.type with
  | .error e => (.error e, st)
  | .ok relation =>
    if entity.relations.any (fun r => r.type == relation.type && r.target == relation.target) then
      (.error .conflict, st)
    else
      update gs st sourceId { relations := some (entity.relations ++ [relation]) } now

/-- `addRelation` from `src/core/entity.js`: lookup, validation, duplicate
rejection, then the relations-array update. -/
def addRelation (gs : List Gov) (st : List Entity) (sourceId relationType targetId : String)
    (now : String) : Except Err (Option Entity) × List Entity :=
  match findById st sourceId with
  | none => (.error .notFound, st)
  | some entity => addRelationTo gs st sourceId entity relationType targetId now

/-! ## `src/core/relation.js` — link, cycle detection, blocked status -/

/-- `DEPENDENCY_RELATIONS` from the source. -/
def DEPENDENCY_RELATIONS : List String := ["depends_on", "requires", "blocks"]

/-- The ids occurring in a store (record ids and relation targets); the BFS
visited set stays inside this list, which bounds the recursion. -/
def idUniverse (st : List Entity) : List String :=
  st.map (fun e => e.id) ++ (st.map fun e => e.relations.map (fun r => r.target)).flatten

/-- Total number of relation entries in the store (bounds one BFS push step). -/
def edgeCount (st : List Entity) : Nat :=
  (st.map fun e => e.relations.length).sum

/-- Number of ids of the universe not yet visited (the decreasing part of the
BFS measure). -/
def countUnvisited (st : List Entity) (visited : List String) : Nat :=
  ((idUniverse st).filter fun i => decide (i ∉ visited)).length

/-- Auxiliary for the termination of `bfsReach`: filtering with a pointwise
stronger predicate yields a shorter list. -/
theorem length_filter_mono {α : Type} (l : List α) (p q : α → Bool)
    (h : ∀ a, p a = true → q a = true) :
    (l.filter p).length ≤ (l.filter q).length := by
  induction l with
  | nil => simp
  | cons a t ih =>
    by_cases hp : p a = true
    · simp [List.filter, hp, h a hp]
      omega
    · simp only [List.filter, Bool.not_eq_true] at hp ⊢
      rw [hp]
      by_cases hq : q a = true
      · simp [hq]
        omega
      · simp only [Bool.not_eq_true] at hq
        rw [hq]
        exact ih

/-- Visiting one more id never increases the unvisited count. -/
theorem countUnvisited_cons_le (st : List Entity) (c : String) (visited : List String) :
    countUnvisited st (c :: visited) ≤ countUnvisited st visited := by
  apply length_filter_mono
  intro a ha
  simp only [decide_eq_true_eq, List.mem_cons, not_or] at ha ⊢
  exact ha.2

/-- Auxiliary for the termination of `bfsReach`: visiting an element of the
list that was not yet visited strictly shrinks the filtered list. -/
theorem length_filter_unvisited_lt (c : String) (visited : List String)
    (hv : c ∉ visited) (l : List String) (hcl : c ∈ l) :
    (l.filter fun i => decide (i ∉ c :: visited)).length <
    (l.filter fun i => decide (i ∉ visited)).length := by
  induction l with
  | nil => cases hcl
  | cons a t ih =>
    by_cases hac : a = c
    · subst hac
      have hP : (decide (a ∉ a :: visited)) = false := by simp
      have hQ : (decide (a ∉ visited)) = true := by simpa using hv
      have hle := length_filter_mono t
        (fun i => decide (i ∉ a :: visited)) (fun i => decide (i ∉ visited))
        (fun x hx => by
          simp only [decide_eq_true_eq, List.mem_cons, not_or] at hx ⊢
          exact hx.2)
      simp only [List.filter_cons, hP, hQ, Bool.false_eq_true, if_false, if_true,
        List.length_cons]
      omega
    · have hct : c ∈ t := by
        rcases List.mem_cons.mp hcl with h | h
        · exact absurd h.symm hac
        · exact h
      have heq : (decide (a ∉ c :: visited)) = (decide (a ∉ visited)) := by
        by_cases hav : a ∈ visited
        · simp [hav]
        · simp [hav, hac]
      have hsplit := ih hct
      cases hb : (decide (a ∉ visited)) with
      | false =>
        simp only [List.filter_cons, heq, hb, Bool.false_eq_true, if_false]
        exact hsplit
      | true =>
        simp only [List.filter_cons, heq, hb, if_true, List.length_cons]
        omega

/-- Visiting an unvisited id of the universe strictly decreases the count. -/
theorem countUnvisited_cons_lt (st : List Entity) (c : String) (visited : List String)
    (hc : c ∈ idUniverse st) (hv : c ∉ visited) :
    countUnvisited st (c :: visited) < countUnvisited st visited :=
  length_filter_unvisited_lt c visited hv (idUniverse st) hc

/-- Membership of a found entity. -/
theorem findById_mem {st : List Entity} {id : String} {e : Entity}
    (h : findById st id = some e) : e ∈ st :=
  List.mem_of_find?_eq_some h

/-- A found entity carries the id it was looked up by. -/
theorem findById_id {st : List Entity} {id : String} {e : Entity}
    (h : findById st id = some e) : e.id = id := by
  have := List.find?_some h
  simpa using this

/-- The relations of a store member are counted by `edgeCount`. -/
theorem relations_length_le_edgeCount {st : List Entity} {e : Entity} (h : e ∈ st) :
    e.relations.length ≤ edgeCount st := by
  induction st with
  | nil => simp at h
  | cons a t ih =>
    rcases List.mem_cons.mp h with rfl | ht
    · simp [edgeCount]
    · have := ih ht
      simp only [edgeCount, List.map_cons, List.sum_cons] at *
      omega

/-- The BFS of `wouldCreateCycle`: pop the queue head, succeed when it is the
source, skip visited ids, otherwise mark visited and push the targets of the
dependency-forming edges of the found entity that are not yet visited. -/
def bfsReach (st : List Entity) (sourceId : String) (visited queue : List String) : Bool :=
  match queue with
  | [] => false
  | currentId :: rest =>
    if currentId = sourceId then true
    else if currentId ∈ visited then bfsReach st sourceId visited rest
    else
      match hf : findById st currentId with
      | none => bfsReach st sourceId (currentId :: visited) rest
      | some current =>
        bfsReach st sourceId (currentId :: visited)
          (rest ++ (current.relations.filter fun rel =>
              decide (rel.type ∈ DEPENDENCY_RELATIONS) &&
              decide (rel.target ∉ currentId :: visited)).map (fun rel => rel.target))
termination_by countUnvisited st visited * (edgeCount st + 1) + queue.length
decreasing_by
  · simp_wf
    try simp only [List.length_cons]
    try omega
  · simp_wf
    have hle := Nat.mul_le_mul_right (edgeCount st + 1)
      (countUnvisited_cons_le st currentId visited)
    try simp only [List.length_cons]
    omega
  · simp_wf
    have hmem : currentId ∈ idUniverse st := by
      have he := findById_mem hf
      have hid := findById_id hf
      unfold idUniverse
      apply List.mem_append_left
      exact hid ▸ List.mem_map_of_mem (fun e => e.id) he
    have hlt := countUnvisited_cons_lt st currentId visited hmem (by assumption)
    have hpush : (current.relations.filter fun rel =>
        decide (rel.type ∈ DEPENDENCY_RELATIONS) &&
        (!decide (rel.target = currentId) && !decide (rel.target ∈ visited))).length ≤
        edgeCount st := by
      have h1 : (current.relations.filter fun rel =>
          decide (rel.type ∈ DEPENDENCY_RELATIONS) &&
          (!decide (rel.target = currentId) && !decide (rel.target ∈ visited))).length ≤
          current.relations.length :=
        List.length_filter_le _ _
      have h2 := relations_length_le_edgeCount (findById_mem hf)
      omega
    have hcu : countUnvisited st (currentId :: visited) + 1 ≤ countUnvisited st visited := hlt
    have expand : countUnvisited st (currentId :: visited) * (edgeCount st + 1) +
        (edgeCount st + 1) ≤ countUnvisited st visited * (edgeCount st + 1) := by
      calc countUnvisited st (currentId :: visited) * (edgeCount st + 1) + (edgeCount st + 1)
          = (countUnvisited st (currentId :: visited) + 1) * (edgeCount st + 1) := by ring
        _ ≤ countUnvisited st visited * (edgeCount st + 1) :=
            Nat.mul_le_mul_right _ hcu
    try simp only [List.length_append, List.length_cons, List.length_map]
    try simp only [List.length_map] at hpush
    omega

/-- `wouldCreateCycle` from `src/core/relation.js`: BFS from the target,
following only dependency-forming edges, looking for the source. -/
def wouldCreateCycle (st : List Entity) (sourceId targetId relationType : String) : Bool :=
  if relationType ∈ DEPENDENCY_RELATIONS then bfsReach st sourceId [] [targetId]
  else false

/-- `link` from `src/core/relation.js`: self-reference rejection, cycle check
for dependency relations, then `addRelation`. -/
def link (gs : List Gov) (st : List Entity) (sourceId relationType targetId : String)
    (now : String) : Except Err (Option Entity) × List Entity :=
  if sourceId = targetId then (.error .selfReference, st)
  else if relationType ∈ DEPENDENCY_RELATIONS then
    if wouldCreateCycle st sourceId targetId relationType then (.error .cycle, st)
    else addRelation gs st sourceId relationType targetId now
  else addRelation gs st sourceId relationType targetId now

/-- `findDependencies` from `src/core/relation.js`: the resolved `depends_on`
targets, dropping dangling ones (`filter(Boolean)`). -/
def findDependencies (st : List Entity) (entityId : String) : List Entity :=
  match findById st entityId with
  | none => []
  | some ent =>
    (ent.relations.filter fun rel => rel.type == "depends_on").filterMap
      fun rel => findById st rel.target

/-- One element of the blockers list returned by `isBlocked`. -/
structure BlockerInfo where
  id : String
  title : String
  status : String
deriving DecidableEq, Repr

/-- The result record of `isBlocked`. -/
structure BlockedResult where
  blocked : Bool
  blockers : List BlockerInfo
deriving DecidableEq, Repr

/-- `isBlocked` from `src/core/relation.js`. -/
def isBlocked (st : List Entity) (entityId : String) : BlockedResult :=
  let dependencies := findDependencies st entityId
  let blockers := dependencies.filter fun dep => !(blockedTerminalStatuses.contains dep.status)
  { blocked := decide (0 < blockers.length)
    blockers := blockers.map fun b => ⟨b.id, b.title, b.status⟩ }

/-- Reachability along dependency-forming edges: the relation the
specification describes for cycle prevention (refl-transitive). -/
inductive DepReach (st : List Entity) : String → String → Prop
  | refl (a : String) : DepReach st a a
  | step {a b c : String} (e : Entity) (he : findById st a = some e) (r : Relation)
      (hr : r ∈ e.relations) (hdep : r.type ∈ DEPENDENCY_RELATIONS) (htgt : r.target = b)
      (hbc : DepReach st b c) : DepReach st a c

/-- Stores whose records carry pairwise distinct ids (always true of a store
maintained through `create`, whose ids are collision-checked). -/
def IdsNodup (st : List Entity) : Prop :=
  (st.map fun e => e.id).Nodup

instance (st : List Entity) : Decidable (IdsNodup st) := by
  unfold IdsNodup
  infer_instance

/-! ## Specification-side helpers for stating the claims -/

/-- History entries for a given tracked field (used to state that an update
appends exactly one entry per changed tracked field). -/
def fldFilter (h : List HistEntry) (f : String) : List HistEntry :=
  h.filter fun en => en.field == some f

/-- The title history entry one `update` call is expected to append. -/
def deltaTitle (entity : Entity) (u : UpdateInput) (now : String) : List HistEntry :=
  match u.title with
  | none => []
  | some t => [{ timestamp := now, action := "title_changed", field := some "title",
                 old_value := some (JVal.str entity.title),
                 new_value := some (JVal.str (jsTrim t)) }]

/-- The status history entry one `update` call is expected to append. -/
def deltaStatus (entity : Entity) (u : UpdateInput) (now : String) : List HistEntry :=
  match u.status with
  | none => []
  | some s => [{ timestamp := now, action := "status_changed", field := some "status",
                 old_value := some (JVal.str entity.status),
                 new_value := some (JVal.str s) }]

/-- The priority history entry one `update` call is expected to append. -/
def deltaPriority (entity : Entity) (u : UpdateInput) (now : String) : List HistEntry :=
  match u.priority with
  | none => []
  | some p =>
    match validatePriority p with
    | .error _ => []
    | .ok n => [{ timestamp := now, action := "priority_changed", field := some "priority",
                  old_value := some (JVal.num entity.priority),
                  new_value := some (JVal.num n) }]

/-- The government history entry one `update` call is expected to append. -/
def deltaGov (gs : List Gov) (entity : Entity) (u : UpdateInput) (now : String) :
    List HistEntry :=
  match u.gov_id with
  | none => []
  | some g =>
    match resolveGov gs g with
    | .error _ => []
    | .ok govId => [{ timestamp := now,
                      action := if govId.isSome then "assigned" else "unassigned",
                      field := some "gov_id",
                      old_value := some (jvalOfOptStr entity.gov_id),
                      new_value := some (jvalOfOptStr govId) }]

/-- The relations history entry one `update` call is expected to append. -/
def deltaRelations (st : List Entity) (entity : Entity) (u : UpdateInput) (now : String) :
    List HistEntry :=
  match u.relations with
  | none => []
  | some rs =>
    match rs.mapM (fun rel => validateRelation st rel entity.type) with
    | .error _ => []
    | .ok relations => [{ timestamp := now, action := "relations_changed",
                          field := some "relations",
                          old_value := some (JVal.rels entity.relations),
                          new_value := some (JVal.rels relations) }]

/-- The history entries one `update` call is expected to append, per tracked
field, in source push order (title, status, priority, gov, relations); the
body block appends none.  This is the specification-side decomposition the
amended claim C4 is checked against. -/
def expectedHistoryDelta (gs : List Gov) (st : List Entity) (entity : Entity)
    (u : UpdateInput) (now : String) : List HistEntry :=
  deltaTitle entity u now ++ deltaStatus entity u now ++ deltaPriority entity u now ++
    deltaGov gs entity u now ++ deltaRelations st entity u now

/-! ## Concrete fixtures used by counterexamples and witnesses -/

/-- An idea in its initial status, for exercising `close`. -/
def ideaE : Entity :=
  { id := "gd-i", type := "idea", title := "I", status := "proposed" }

/-- An action with a body, for exercising body-only updates. -/
def bodyE : Entity :=
  { id := "ga-b", type := "action", title := "B", status := "open",
    body := some "old body",
    history := [{ timestamp := "t0", action := "created" }] }

/-- An action whose only relation dangles (its target is in no store). -/
def dupE : Entity :=
  { id := "ga-d", type := "action", title := "D", status := "open",
    relations := [⟨"depends_on", "ga-zz"⟩] }

/-- An action depending on `cycB`. -/
def cycA : Entity :=
  { id := "ga-a", type := "action", title := "A", status := "open",
    relations := [⟨"depends_on", "ga-b"⟩] }

/-- A plain action. -/
def cycB : Entity :=
  { id := "ga-b", type := "action", title := "B", status := "open" }

/-- A two-action store with the single dependency `cycA depends_on cycB`. -/
def cycStore : List Entity := [cycA, cycB]

/-- A pair of actions with the duplicate-to-be edge already present and valid. -/
def dupStore : List Entity :=
  [{ id := "ga-p", type := "action", title := "P", status := "open",
     relations := [⟨"depends_on", "ga-q"⟩] },
   { id := "ga-q", type := "action", title := "Q", status := "open" }]

/-! # Theorems -/

/-! ## C7 — `calculateSimilarity` -/

/-- C7: `calculateSimilarity` computes the Jaccard coefficient over the sets
of lowercase, punctuation-stripped, whitespace-tokenized words, returns 0 when
either input is empty, is symmetric for all inputs, maps the pair of equal
texts `"pothole on main street"` to 1.0, and maps `"a b c"` / `"x y z"`
to 0.0. -/
theorem claim_C7_similarity :
    (∀ a b : String, calculateSimilarity a b = calculateSimilarity b a) ∧
    calculateSimilarity "pothole on main street" "pothole on main street" = 1 ∧
    calculateSimilarity "a b c" "x y z" = 0 ∧
    (∀ b : String, calculateSimilarity "" b = 0 ∧ calculateSimilarity b "" = 0) ∧
    (∀ a b : String, a ≠ "" → b ≠ "" →
      calculateSimilarity a b =
        if (tokenSet a ∪ tokenSet b).card = 0 then 0
        else ((tokenSet a ∩ tokenSet b).card : ℚ) / ((tokenSet a ∪ tokenSet b).card : ℚ)) := by
  refine ⟨?_, ?_, ?_, ?_, ?_⟩
  · intro a b
    unfold calculateSimilarity
    by_cases h : a = "" ∨ b = ""
    · rw [if_pos h, if_pos (Or.symm h)]
    · rw [if_neg h, if_neg (fun hc => h (Or.symm hc))]
      rw [Finset.inter_comm (tokenSet a), Finset.union_comm (tokenSet a)]
  · unfold calculateSimilarity
    rw [if_neg (by decide)]
    rw [Finset.inter_self, Finset.union_self]
    have hcard : (tokenSet "pothole on main street").card = 4 := by decide
    rw [hcard]
    norm_num
  · unfold calculateSimilarity
    rw [if_neg (by decide)]
    have hi : (tokenSet "a b c" ∩ tokenSet "x y z").card = 0 := by decide
    have hu : (tokenSet "a b c" ∪ tokenSet "x y z").card = 6 := by decide
    rw [hi, hu]
    norm_num
  · intro b
    constructor
    · unfold calculateSimilarity
      rw [if_pos (Or.inl rfl)]
    · unfold calculateSimilarity
      rw [if_pos (Or.inr rfl)]
  · intro a b ha hb
    unfold calculateSimilarity
    rw [if_neg (not_or.mpr ⟨ha, hb⟩)]

/-- Witness for C7: the Jaccard characterization instantiated at the concrete
nonempty pair `"ab"` / `"cd"`. -/
theorem claim_C7_similarity_witness :
    calculateSimilarity "ab" "cd" =
      if (tokenSet "ab" ∪ tokenSet "cd").card = 0 then 0
      else ((tokenSet "ab" ∩ tokenSet "cd").card : ℚ) / ((tokenSet "ab" ∪ tokenSet "cd").card : ℚ) :=
  claim_C7_similarity.2.2.2.2 "ab" "cd" (by decide) (by decide)

/-! ## C10 — similarity of punctuation-only inputs -/

/-- The token list of any text is nonempty: `split(/\s+/)` never returns an
empty array (an empty string splits to `[""]`). -/
theorem splitWsAux_ne_nil (l acc : List Char) : splitWsAux l acc ≠ [] := by
  induction l generalizing acc with
  | nil => simp [splitWsAux]
  | cons c rest ih =>
    unfold splitWsAux
    by_cases hc : isJsWs c = true
    · rw [if_pos hc]
      simp
    · rw [if_neg hc]
      exact ih _

/-- The token set of any text is nonempty. -/
theorem tokenSet_nonempty (t : String) : (tokenSet t).Nonempty := by
  unfold tokenSet jsSplitWs
  cases h : splitWsAux (normalizeText t).data [] with
  | nil => exact absurd h (splitWsAux_ne_nil _ _)
  | cons x xs =>
    refine ⟨(⟨x⟩ : String), ?_⟩
    simp

/-- C10: two non-empty texts that both normalize to the empty string (such as
`"!!!"` and `"???"`) have similarity 1.0, because splitting the empty
normalized string yields the set containing the empty token; the token-set
union of non-empty inputs is never empty, so the union-size-zero guard is
unreachable and a 0 due to emptiness occurs only when an input string itself
is empty. -/
theorem claim_C10_empty_normalization :
    (∀ a b : String, a ≠ "" → b ≠ "" → normalizeText a = "" → normalizeText b = "" →
      calculateSimilarity a b = 1) ∧
    calculateSimilarity "!!!" "???" = 1 ∧
    (∀ a b : String, a ≠ "" → b ≠ "" → (tokenSet a ∪ tokenSet b).card ≠ 0) ∧
    (∀ a b : String, a ≠ "" → b ≠ "" →
      calculateSimilarity a b =
        ((tokenSet a ∩ tokenSet b).card : ℚ) / ((tokenSet a ∪ tokenSet b).card : ℚ)) := by
  have hguard : ∀ a b : String, (tokenSet a ∪ tokenSet b).card ≠ 0 := by
    intro a b
    have h1 : (tokenSet a).Nonempty := tokenSet_nonempty a
    have h2 : (tokenSet a ∪ tokenSet b).Nonempty := h1.mono Finset.subset_union_left
    simpa [Finset.card_eq_zero] using h2.ne_empty
  have hmain : ∀ a b : String, a ≠ "" → b ≠ "" →
      calculateSimilarity a b =
        ((tokenSet a ∩ tokenSet b).card : ℚ) / ((tokenSet a ∪ tokenSet b).card : ℚ) := by
    intro a b ha hb
    unfold calculateSimilarity
    rw [if_neg (not_or.mpr ⟨ha, hb⟩), if_neg (hguard a b)]
  refine ⟨?_, ?_, fun a b _ _ => hguard a b, hmain⟩
  · intro a b ha hb hna hnb
    have hta : tokenSet a = {""} := by
      unfold tokenSet
      rw [hna]
      decide
    have htb : tokenSet b = {""} := by
      unfold tokenSet
      rw [hnb]
      decide
    rw [hmain a b ha hb, hta, htb]
    norm_num
  · have h1 : normalizeText "!!!" = "" := by decide
    have h2 : normalizeText "???" = "" := by decide
    have hta : tokenSet "!!!" = {""} := by
      unfold tokenSet
      rw [h1]
      decide
    have htb : tokenSet "???" = {""} := by
      unfold tokenSet
      rw [h2]
      decide
    rw [hmain "!!!" "???" (by decide) (by decide), hta, htb]
    norm_num

/-- Witness for C10: the punctuation-only pair `"!!!"` / `"???"`. -/
theorem claim_C10_empty_normalization_witness :
    calculateSimilarity "!!!" "???" = 1 ∧ (tokenSet "!!!" ∪ tokenSet "???").card ≠ 0 :=
  ⟨claim_C10_empty_normalization.1 "!!!" "???" (by decide) (by decide) (by decide) (by decide),
   claim_C10_empty_normalization.2.2.1 "!!!" "???" (by decide) (by decide)⟩

/-! ## C9 — slug generation and uniquification -/

/-- The numbered-suffix loop returns the first free suffix it reaches. -/
theorem slugLoop_finds (baseSlug : String) (ec : String → Bool) (fb : String) :
    ∀ fuel counter k : Nat, counter + fuel = 1000 → counter ≤ k → k < 1000 →
      (∀ j, counter ≤ j → j < k → ec (baseSlug ++ "-" ++ toString j) = true) →
      ec (baseSlug ++ "-" ++ toString k) = false →
      slugLoop baseSlug ec fb counter fuel = baseSlug ++ "-" ++ toString k := by
  intro fuel
  induction fuel with
  | zero =>
    intro counter k hsum hck hk _ _
    omega
  | succ n ih =>
    intro counter k hsum hck hk hprev hfree
    unfold slugLoop
    by_cases hek : counter = k
    · subst hek
      rw [hfree]
      simp
    · have hlt : counter < k := by omega
      rw [hprev counter (le_refl _) hlt]
      simp only [if_true]
      exact ih (counter + 1) k (by omega) (by omega) hk
        (fun j hj1 hj2 => hprev j (by omega) hj2) hfree

/-- When every numbered suffix is taken, the loop falls back to the random
hex suffix. -/
theorem slugLoop_exhausts (baseSlug : String) (ec : String → Bool) (fb : String) :
    ∀ fuel counter : Nat, counter + fuel = 1000 →
      (∀ j, counter ≤ j → j < 1000 → ec (baseSlug ++ "-" ++ toString j) = true) →
      slugLoop baseSlug ec fb counter fuel = baseSlug ++ "-" ++ fb := by
  intro fuel
  induction fuel with
  | zero => intro counter _ _; rfl
  | succ n ih =>
    intro counter hsum hall
    unfold slugLoop
    rw [hall counter (le_refl _) (by omega)]
    simp only [if_true]
    exact ih (counter + 1) (by omega) (fun j hj1 hj2 => hall j (by omega) hj2)

/-- C9: `generateSlug` lower-cases, collapses runs of non-alphanumeric
characters to single hyphens, trims edge hyphens and truncates to 100
characters (so `generateSlug("  Travis County!!! ") = "travis-county"`), and
`makeSlugUnique` returns the base unchanged when free, otherwise the first
free suffix among `-2`, …, `-999` (the loop bound `counter < 1000`), falling
back to the supplied random hex suffix — never raising (it is total). -/
theorem claim_C9_slugs :
    generateSlug "  Travis County!!! " = "travis-county" ∧
    (∀ name : String, generateSlug name =
      ⟨(trimEdgeHyphens (collapseNonAlnumAux false
          (jsTrimList (jsToLower name).data))).take 100⟩) ∧
    (∀ base fb : String, ∀ ec : String → Bool,
      ec base = false → makeSlugUnique base ec fb = base) ∧
    (∀ base fb : String, ∀ ec : String → Bool, ∀ k : Nat,
      ec base = true → 2 ≤ k → k < 1000 →
      (∀ j < k, 2 ≤ j → ec (base ++ "-" ++ toString j) = true) →
      ec (base ++ "-" ++ toString k) = false →
      makeSlugUnique base ec fb = base ++ "-" ++ toString k) ∧
    (∀ base fb : String, ∀ ec : String → Bool,
      ec base = true →
      (∀ j < 1000, 2 ≤ j → ec (base ++ "-" ++ toString j) = true) →
      makeSlugUnique base ec fb = base ++ "-" ++ fb) := by
  refine ⟨by decide, fun name => rfl, ?_, ?_, ?_⟩
  · intro base fb ec hfree
    unfold makeSlugUnique
    rw [hfree]
    simp
  · intro base fb ec k hbase h2k hk hprev hfree
    unfold makeSlugUnique
    rw [hbase]
    simp only [if_true]
    exact slugLoop_finds base ec fb 998 2 k (by omega) h2k hk
      (fun j hj1 hj2 => hprev j hj2 hj1) hfree
  · intro base fb ec hbase hall
    unfold makeSlugUnique
    rw [hbase]
    simp only [if_true]
    exact slugLoop_exhausts base ec fb 998 2 (by omega)
      (fun j hj1 hj2 => hall j hj2 hj1)

/-- Witness for C9: a base whose slug and first numbered suffix are taken
resolves to `-3`; an unclaimed base is returned unchanged. -/
theorem claim_C9_slugs_witness :
    makeSlugUnique "y" (fun s => s == "x") "ffffff" = "y" ∧
    makeSlugUnique "x" (fun s => s == "x" || s == "x-2") "ffffff" = "x-3" :=
  ⟨claim_C9_slugs.2.2.1 "y" "ffffff" (fun s => s == "x") (by decide),
   claim_C9_slugs.2.2.2.1 "x" "ffffff" (fun s => s == "x" || s == "x-2") 3
     (by decide) (by decide) (by decide) (by decide) (by decide)⟩

/-! ## C6 — `classifyText` -/

/-- The argmax loop over the four insertion-ordered score entries equals the
first-maximum chain with default `"idea"` on all-zero scores. -/
theorem classifyLoop_spec (g p i a : Nat) :
    classifyLoop [("goal", g), ("problem", p), ("idea", i), ("action", a)] "idea" 0 0 =
    (classifyRefType g p i a, natMax4 g p i a, g + p + i + a) := by
  have hb1 : g ≤ natMax4 g p i a :=
    le_trans (Nat.le_max_left g p) (Nat.le_max_left _ _)
  have hb2 : p ≤ natMax4 g p i a :=
    le_trans (Nat.le_max_right g p) (Nat.le_max_left _ _)
  have hb3 : i ≤ natMax4 g p i a :=
    le_trans (Nat.le_max_left i a) (Nat.le_max_right _ _)
  have hb4 : a ≤ natMax4 g p i a :=
    le_trans (Nat.le_max_right i a) (Nat.le_max_right _ _)
  have hb5 : natMax4 g p i a = g ∨ natMax4 g p i a = p ∨
      natMax4 g p i a = i ∨ natMax4 g p i a = a := by
    unfold natMax4
    simp only [Nat.max_def]
    split_ifs <;> simp
  simp only [classifyLoop, classifyRefType, gt_iff_lt, Prod.mk.injEq]
  split_ifs <;> simp only [Prod.mk.injEq, true_and] <;>
    first
      | (exfalso; rcases hb5 with h5 | h5 | h5 | h5 <;> omega)
      | (refine ⟨rfl, ?_, ?_⟩ <;> (rcases hb5 with h5 | h5 | h5 | h5 <;> omega))
      | (refine ⟨?_, ?_⟩ <;> (rcases hb5 with h5 | h5 | h5 | h5 <;> omega))
      | (rcases hb5 with h5 | h5 | h5 | h5 <;> omega)

/-- C6 counterexample: the source rounds the returned confidence to two
decimals (`Math.round(confidence * 100) / 100`), so on `"vision pothole
scheme"` (scores 1, 1, 1, 0) it returns 0.33 while the reference definition
of the claim prescribes the exact ratio 1/3. -/
theorem claim_C6_classify_counterexample :
    classifyText "vision pothole scheme" ≠ classifyRef "vision pothole scheme" ∧
    (classifyRef "vision pothole scheme").confidence = 1/3 ∧
    (classifyText "vision pothole scheme").confidence = 33/100 ∧
    (classifyText "vision pothole scheme").scores = ⟨1, 1, 1, 0⟩ ∧
    (classifyText "vision pothole scheme").type = "goal" := by
  have hb : classifyBest "vision pothole scheme" = ("goal", 1, 3) := by decide
  have hs : classifyScores "vision pothole scheme" = ⟨1, 1, 1, 0⟩ := by decide
  have hm : natMax4 1 1 1 0 = 1 := by decide
  have hct : classifyText "vision pothole scheme" =
      { type := "goal", confidence := 33/100, scores := ⟨1, 1, 1, 0⟩ } := by
    unfold classifyText
    rw [hb, hs]
    simp only [Classification.mk.injEq, and_true, true_and]
    norm_num [jsRound]
  have hcr : classifyRef "vision pothole scheme" =
      { type := "goal", confidence := 1/3, scores := ⟨1, 1, 1, 0⟩ } := by
    unfold classifyRef
    rw [hs]
    simp only [Classification.mk.injEq, and_true, true_and]
    refine ⟨by decide, ?_⟩
    norm_num [hm]
  rw [hct, hcr]
  refine ⟨?_, rfl, rfl, rfl, rfl⟩
  intro h
  have := congrArg Classification.confidence h
  norm_num at this

/-- C6 amended: `classifyText` matches the reference definition of the claim
(keyword-substring counting scores, argmax with ties broken in the order
goal, problem, idea, action, default `idea` on all-zero scores, confidence
`bestScore / totalScore` or 0.25 on all-zero scores) except that the returned
confidence is additionally rounded to two decimals, half up; in particular
`classifyText "fix the broken streetlight"` has type `problem` and positive
confidence. -/
theorem claim_C6_classify_amended :
    (∀ text : String,
      (classifyText text).type = (classifyRef text).type ∧
      (classifyText text).scores = (classifyRef text).scores ∧
      (classifyText text).confidence =
        (jsRound ((classifyRef text).confidence * 100) : ℚ) / 100) ∧
    (classifyText "fix the broken streetlight").type = "problem" ∧
    0 < (classifyText "fix the broken streetlight").confidence := by
  refine ⟨?_, ?_, ?_⟩
  · intro text
    unfold classifyText classifyRef classifyBest
    rw [classifyLoop_spec]
    refine ⟨rfl, rfl, ?_⟩
    by_cases hz : (classifyScores text).goal + (classifyScores text).problem +
        (classifyScores text).idea + (classifyScores text).action = 0
    · simp [hz]
    · have hpos : 0 < (classifyScores text).goal + (classifyScores text).problem +
          (classifyScores text).idea + (classifyScores text).action :=
        Nat.pos_of_ne_zero hz
      simp [hz, hpos]
  · have hb : classifyBest "fix the broken streetlight" = ("problem", 1, 2) := by decide
    show (classifyBest "fix the broken streetlight").1 = "problem"
    rw [hb]
  · have hb : classifyBest "fix the broken streetlight" = ("problem", 1, 2) := by decide
    unfold classifyText
    rw [hb]
    norm_num [jsRound]

/-! ## C2 — `isBlocked` -/

/-- C2: `isBlocked` reports blocked exactly when some `depends_on` target
resolves to an entity whose status is outside the terminal-status set
`{completed, resolved, accepted, cancelled, deprecated, rejected}`, and its
blockers list projects exactly the unresolved dependency targets. -/
theorem claim_C2_isBlocked (st : List Entity) (entityId : String) :
    ((isBlocked st entityId).blocked = true ↔
      ∃ e, findById st entityId = some e ∧
        ∃ rel ∈ e.relations, rel.type = "depends_on" ∧
          ∃ dep, findById st rel.target = some dep ∧
            dep.status ∉ blockedTerminalStatuses) ∧
    (isBlocked st entityId).blockers =
      ((findDependencies st entityId).filter fun dep =>
        !(blockedTerminalStatuses.contains dep.status)).map
          (fun b => ⟨b.id, b.title, b.status⟩) := by
  refine ⟨?_, rfl⟩
  unfold isBlocked findDependencies
  cases hfind : findById st entityId with
  | none => simp
  | some ent =>
    simp only [decide_eq_true_eq, List.length_pos_iff_exists_mem, List.mem_filter,
      List.mem_filterMap, Option.some.injEq, Bool.not_eq_true, Bool.not_eq_true',
      beq_iff_eq]
    constructor
    · rintro ⟨dep, ⟨rel, ⟨hrelmem, htype⟩, hfinddep⟩, hstatus⟩
      refine ⟨ent, rfl, rel, hrelmem, htype, dep, hfinddep, ?_⟩
      intro hmem
      have hc : blockedTerminalStatuses.contains dep.status = true := List.elem_iff.mpr hmem
      rw [hc] at hstatus
      cases hstatus
    · rintro ⟨e, he, rel, hrelmem, htype, dep, hfinddep, hstatus⟩
      subst he
      refine ⟨dep, ⟨rel, ⟨hrelmem, htype⟩, hfinddep⟩, ?_⟩
      cases hcon : blockedTerminalStatuses.contains dep.status with
      | false => rfl
      | true => exact absurd (List.elem_iff.mp hcon) hstatus

/-! ## C5 — atomicity of `create` and `update` on error -/

/-- C5: when `create` or `update` raises (validation, not-found, conflict),
the record store is returned unchanged: all validation runs before the single
store mutation (`appendRecord` resp. `updateRecord`), so no partial state is
possible. -/
theorem claim_C5_atomicity :
    (∀ (gs : List Gov) (st : List Entity) (type : String) (data : CreateInput)
        (freshId now : String) (e : Err),
      (create gs st type data freshId now).1 = .error e →
      (create gs st type data freshId now).2 = st) ∧
    (∀ (gs : List Gov) (st : List Entity) (id : String) (u : UpdateInput)
        (now : String) (e : Err),
      (update gs st id u now).1 = .error e →
      (update gs st id u now).2 = st) := by
  constructor
  · intro gs st type data freshId now e h
    unfold create at h ⊢
    cases hp : createPlan gs st type data freshId now with
    | error e2 => rfl
    | ok ent =>
      rw [hp] at h
      exact absurd h (by simp)
  · intro gs st id u now e h
    unfold update at h ⊢
    cases hf : findById st id with
    | none => rfl
    | some entity =>
      rw [hf] at h
      have h2 : (updateFound gs st id entity u now).1 = .error e := h
      show (updateFound gs st id entity u now).2 = st
      unfold updateFound at h2 ⊢
      cases hp : updatePlan gs st entity u now with
      | error e2 => rfl
      | ok au =>
        rw [hp] at h2
        exact absurd h2 (by simp)

/-- Witness for C5: creating with an empty title raises a validation error
and leaves the (empty) store untouched; updating a present entity to an
out-of-enum status raises and leaves the store untouched. -/
theorem claim_C5_atomicity_witness :
    (create [] [ideaE] "action" { title := "" } "ga-x" "t0").2 = [ideaE] ∧
    (update [] [ideaE] "gd-i" { status := some "done" } "t1").2 = [ideaE] :=
  ⟨claim_C5_atomicity.1 [] [ideaE] "action" { title := "" } "ga-x" "t0" .validation (by rfl),
   claim_C5_atomicity.2 [] [ideaE] "gd-i" { status := some "done" } "t1" .validation (by rfl)⟩

/-! ## Characterization of `update` (shared by C3, C4, C8, C1) -/

/-- With pairwise distinct ids, the records matching a found id reduce to the
single found record. -/
theorem filter_id_eq {st : List Entity} {id : String} {e : Entity}
    (hnodup : IdsNodup st) (hf : findById st id = some e) :
    st.filter (fun r => r.id == id) = [e] := by
  induction st with
  | nil => simp [findById] at hf
  | cons a t ih =>
    rw [IdsNodup, List.map_cons, List.nodup_cons] at hnodup
    by_cases ha : a.id = id
    · have hfa : findById (a :: t) id = some a := by
        unfold findById
        rw [List.find?_cons_of_pos _ (by simpa using ha)]
      rw [hfa] at hf
      obtain rfl : a = e := by simpa using hf
      rw [List.filter_cons_of_pos (by simpa using ha)]
      have ht : t.filter (fun r => r.id == id) = [] := by
        rw [List.filter_eq_nil_iff]
        intro r hr hrid
        apply hnodup.1
        rw [ha]
        have : r.id = id := by simpa using hrid
        exact this ▸ List.mem_map_of_mem (fun x => x.id) hr
      rw [ht]
    · have hft : findById t id = some e := by
        unfold findById at hf ⊢
        rwa [List.find?_cons_of_neg _ (by simpa using ha)] at hf
      rw [List.filter_cons_of_neg (by simpa using ha)]
      exact ih hnodup.2 hft

/-- `updateRecord` on a found id merges the found record and rewrites the
store pointwise. -/
theorem updateRecord_char {st : List Entity} {id : String} {e : Entity}
    (au : Allowed) (now : String) (hnodup : IdsNodup st) (hf : findById st id = some e) :
    updateRecord st id au now =
      (some (applyUpdates e au now),
       st.map fun r => if r.id == id then applyUpdates r au now else r) := by
  unfold updateRecord
  rw [filter_id_eq hnodup hf]
  rfl

/-- `update` reduces to `updateFound` on the found entity. -/
theorem update_found {gs : List Gov} {st : List Entity} {id : String} {e : Entity}
    (u : UpdateInput) (now : String) (hf : findById st id = some e) :
    update gs st id u now = updateFound gs st id e u now := by
  unfold update
  rw [hf]

/-- A successful plan makes `updateFound` return the merged entity and the
pointwise-rewritten store. -/
theorem updateFound_ok {gs : List Gov} {st : List Entity} {id : String} {e : Entity}
    {u : UpdateInput} {now : String} {au : Allowed}
    (hnodup : IdsNodup st) (hf : findById st id = some e)
    (hplan : updatePlan gs st e u now = .ok au) :
    updateFound gs st id e u now =
      (.ok (some (applyUpdates e au now)),
       st.map fun r => if r.id == id then applyUpdates r au now else r) := by
  unfold updateFound
  rw [hplan]
  show (Except.ok (updateRecord st id au now).1, (updateRecord st id au now).2) = _
  rw [updateRecord_char au now hnodup hf]

/-- Inversion of a successful `update`. -/
theorem update_ok_inv {gs : List Gov} {st : List Entity} {id : String} {u : UpdateInput}
    {now : String} {e2 : Entity} {st2 : List Entity}
    (hnodup : IdsNodup st)
    (h : update gs st id u now = (.ok (some e2), st2)) :
    ∃ entity au, findById st id = some entity ∧ updatePlan gs st entity u now = .ok au ∧
      e2 = applyUpdates entity au now ∧
      st2 = st.map fun r => if r.id == id then applyUpdates r au now else r := by
  unfold update at h
  cases hf : findById st id with
  | none =>
    rw [hf] at h
    simp at h
  | some entity =>
    rw [hf] at h
    have h2 : updateFound gs st id entity u now = (.ok (some e2), st2) := h
    unfold updateFound at h2
    cases hp : updatePlan gs st entity u now with
    | error e =>
      rw [hp] at h2
      simp at h2
    | ok au =>
      rw [hp] at h2
      have h3 : (Except.ok (updateRecord st id au now).1,
          (updateRecord st id au now).2) =
          ((Except.ok (some e2) : Except Err (Option Entity)), st2) := h2
      rw [updateRecord_char au now hnodup hf] at h3
      refine ⟨entity, au, rfl, hp, ?_, ?_⟩
      · have := congrArg Prod.fst h3
        simpa using this.symm
      · have := congrArg Prod.snd h3
        simpa using this.symm

/-- A relation that validates successfully is returned unchanged. -/
theorem validateRelation_ok_eq {st : List Entity} {rel : Relation} {ty : String}
    {r2 : Relation} (h : validateRelation st rel ty = .ok r2) : r2 = rel := by
  unfold validateRelation at h
  split at h
  · exact absurd h (by simp)
  · split at h
    · exact absurd h (by simp)
    · split at h
      · exact absurd h (by simp)
      · split at h
        · exact absurd h (by simp)
        · split at h
          · exact absurd h (by simp)
          · cases rel
            simpa using h.symm

/-- A relations array that validates successfully is returned unchanged. -/
theorem mapM_validateRelation_id {st : List Entity} {ty : String} :
    ∀ {rs out : List Relation},
      rs.mapM (fun rel => validateRelation st rel ty) = .ok out → out = rs := by
  intro rs
  induction rs with
  | nil =>
    intro out h
    rw [List.mapM_nil] at h
    have h2 : ([] : List Relation) = out := by
      simpa [Pure.pure, Except.pure] using h
    exact h2.symm
  | cons r t ih =>
    intro out h
    rw [List.mapM_cons] at h
    cases hr : validateRelation st r ty with
    | error e =>
      rw [hr] at h
      exact absurd h (by simp [Bind.bind, Except.bind])
    | ok b =>
      rw [hr] at h
      cases ht : t.mapM (fun rel => validateRelation st rel ty) with
      | error e =>
        rw [ht] at h
        exact absurd h (by simp [Bind.bind, Except.bind])
      | ok bs =>
        rw [ht] at h
        have hb : b = r := validateRelation_ok_eq hr
        have hbs : bs = t := ih ht
        have : b :: bs = out := by
          simpa [Bind.bind, Except.bind, Pure.pure, Except.pure] using h
        rw [← this, hb, hbs]

/-! ## C3 — `close` -/

/-- The update plan of a status-plus-metadata payload (the shape `close`
sends): one status history entry, `closed_at` toggled by membership in the
update terminal-status list. -/
theorem updatePlan_status_only (gs : List Gov) (st : List Entity) (entity : Entity)
    (now s : String) (meta : Option (List (String × String)))
    (hval : validateStatus s entity.type = .ok ()) :
    updatePlan gs st entity { status := some s, metadata := meta } now = .ok
      { status := some s
        closed_at :=
          if s ∈ updateTerminalStatuses then some (some now)
          else if entity.closed_at.isSome then some none else none
        metadata := match meta with
          | some m => some (mergeMeta entity.metadata m)
          | none => none
        history := some (entity.history ++
          [{ timestamp := now, action := "status_changed", field := some "status",
             old_value := some (JVal.str entity.status),
             new_value := some (JVal.str s) }]) } := by
  cases meta <;>
    (simp only [updatePlan, planTitle, planBody, planStatus, planPriority, planGov,
      planRelations, planLocation, planActionIdea, planMetadata, Except.bind, hval]
     split_ifs <;> rfl)

/-- C3 counterexample: closing an idea without the rejected option succeeds,
sets the canonical status `accepted`, and leaves `closed_at` null — because
`accepted` is missing from the terminal-status list `update` consults — so
the closed entity does not get a non-null `closed_at` timestamp. -/
theorem claim_C3_close_counterexample :
    ((close [] [ideaE] "gd-i" {} "t9").1.map fun o => o.map fun e => (e.status, e.closed_at)) =
      .ok (some ("accepted", none)) := by
  rfl

/-- `close` on a found entity whose type yields a canonical status: the
status is applied and `closed_at` is set exactly when that status belongs to
the update terminal-status list. -/
theorem close_found_char (gs : List Gov) (st : List Entity) (id now : String)
    (options : CloseOptions) (entity : Entity) (s : String)
    (hnodup : IdsNodup st) (hf : findById st id = some entity)
    (hs : closeStatusFor entity.type options = some s)
    (hval : validateStatus s entity.type = .ok ()) :
    ∃ e2 st2, close gs st id options now = (.ok (some e2), st2) ∧
      e2.status = s ∧
      e2.closed_at = (if s ∈ updateTerminalStatuses then some now
        else if entity.closed_at.isSome then none else entity.closed_at) := by
  have hci : closeInput entity options =
      ({ status := some s,
         metadata := match options.reason with
           | some r => if r = "" then none else some [("close_reason", r)]
           | none => none } : UpdateInput) := by
    unfold closeInput
    rw [hs]
  have hred : close gs st id options now =
      update gs st id (closeInput entity options) now := by
    unfold close
    rw [hf]
  rw [hred, hci, update_found _ now hf,
    updateFound_ok hnodup hf (updatePlan_status_only gs st entity now s _ hval)]
  refine ⟨_, _, rfl, rfl, ?_⟩
  by_cases hterm : s ∈ updateTerminalStatuses
  · simp [applyUpdates, hterm]
  · cases hco : entity.closed_at <;> simp [applyUpdates, hterm, hco]

/-- C3 amended: for every existing entity of one of the four types, `close`
succeeds and sets the canonical terminal status for its type (Goal →
deprecated, Problem → resolved, Idea → accepted unless rejected then
rejected, Action → completed unless cancelled then cancelled) via `update`;
the returned entity has `closed_at = now` in every case except an Idea closed
as `accepted`, whose `closed_at` ends up null (cleared if it was set),
because `accepted` is missing from the terminal-status list of `update`. -/
theorem claim_C3_close_amended (gs : List Gov) (st : List Entity) (id now : String)
    (options : CloseOptions) (entity : Entity)
    (hnodup : IdsNodup st) (hf : findById st id = some entity)
    (htype : entity.type ∈ ENTITY_TYPES) :
    ∃ e2 st2, close gs st id options now = (.ok (some e2), st2) ∧
      e2.status =
        (if entity.type = "goal" then "deprecated"
         else if entity.type = "problem" then "resolved"
         else if entity.type = "idea" then
           (if options.rejected then "rejected" else "accepted")
         else (if options.cancelled then "cancelled" else "completed")) ∧
      e2.closed_at =
        (if entity.type = "idea" ∧ options.rejected = false then none else some now) := by
  have htype4 : entity.type = "goal" ∨ entity.type = "problem" ∨
      entity.type = "idea" ∨ entity.type = "action" := by
    simpa [ENTITY_TYPES] using htype
  rcases htype4 with ht | ht | ht | ht
  · obtain ⟨e2, st2, hcl, hst, hca⟩ := close_found_char gs st id now options entity
      "deprecated" hnodup hf (by simp [closeStatusFor, ht]) (by rw [ht]; rfl)
    refine ⟨e2, st2, hcl, ?_, ?_⟩
    · rw [hst]
      simp [ht]
    · rw [hca]
      simp [ht, updateTerminalStatuses]
  · obtain ⟨e2, st2, hcl, hst, hca⟩ := close_found_char gs st id now options entity
      "resolved" hnodup hf (by simp [closeStatusFor, ht]) (by rw [ht]; rfl)
    refine ⟨e2, st2, hcl, ?_, ?_⟩
    · rw [hst]
      simp [ht]
    · rw [hca]
      simp [ht, updateTerminalStatuses]
  · cases hrej : options.rejected with
    | true =>
      obtain ⟨e2, st2, hcl, hst, hca⟩ := close_found_char gs st id now options entity
        "rejected" hnodup hf (by simp [closeStatusFor, ht, hrej]) (by rw [ht]; rfl)
      refine ⟨e2, st2, hcl, ?_, ?_⟩
      · rw [hst]
        simp [ht, hrej]
      · rw [hca]
        simp [ht, hrej, updateTerminalStatuses]
    | false =>
      obtain ⟨e2, st2, hcl, hst, hca⟩ := close_found_char gs st id now options entity
        "accepted" hnodup hf (by simp [closeStatusFor, ht, hrej]) (by rw [ht]; rfl)
      refine ⟨e2, st2, hcl, ?_, ?_⟩
      · rw [hst]
        simp [ht, hrej]
      · rw [hca]
        cases hco : entity.closed_at <;>
          simp [ht, hrej, hco, updateTerminalStatuses]
  · cases hcan : options.cancelled with
    | true =>
      obtain ⟨e2, st2, hcl, hst, hca⟩ := close_found_char gs st id now options entity
        "cancelled" hnodup hf (by simp [closeStatusFor, ht, hcan]) (by rw [ht]; rfl)
      refine ⟨e2, st2, hcl, ?_, ?_⟩
      · rw [hst]
        simp [ht, hcan]
      · rw [hca]
        simp [ht, updateTerminalStatuses]
  
    | false =>
      obtain ⟨e2, st2, hcl, hst, hca⟩ := close_found_char gs st id now options entity
        "completed" hnodup hf (by simp [closeStatusFor, ht, hcan]) (by rw [ht]; rfl)
      refine ⟨e2, st2, hcl, ?_, ?_⟩
      · rw [hst]
        simp [ht, hcan]
      · rw [hca]
        simp [ht, updateTerminalStatuses]

/-- Witness for C3 amended: closing the fixture idea with default options. -/
theorem claim_C3_close_amended_witness :
    ∃ e2 st2, close [] [ideaE] "gd-i" {} "t9" = (.ok (some e2), st2) ∧
      e2.status =
        (if ideaE.type = "goal" then "deprecated"
         else if ideaE.type = "problem" then "resolved"
         else if ideaE.type = "idea" then
           (if ({} : CloseOptions).rejected then "rejected" else "accepted")
         else (if ({} : CloseOptions).cancelled then "cancelled" else "completed")) ∧
      e2.closed_at =
        (if ideaE.type = "idea" ∧ ({} : CloseOptions).rejected = false then none
         else some "t9") :=
  claim_C3_close_amended [] [ideaE] "gd-i" "t9" {} ideaE (by decide) (by rfl) (by decide)

/-! ## C4 — history entries of `update` -/

/-- The title block: one title entry when the key is present, none otherwise;
the `history` field of the accumulating record is untouched. -/
theorem planTitle_char {entity : Entity} {u : UpdateInput} {now : String}
    {acc acc2 : PlanAcc} (h : planTitle entity u now acc = .ok acc2) :
    acc2.1.history = acc.1.history ∧
    acc2.2 = acc.2 ++ (match u.title with
      | none => []
      | some t => [{ timestamp := now, action := "title_changed", field := some "title",
                     old_value := some (JVal.str entity.title),
                     new_value := some (JVal.str (jsTrim t)) }]) := by
  unfold planTitle at h
  cases hu : u.title with
  | none =>
    simp only [hu] at h
    obtain rfl : acc = acc2 := by simpa using h
    simp [hu]
  | some t =>
    simp only [hu] at h
    cases hv : validateTitle t with
    | error e =>
      rw [hv] at h
      exact absurd h (by simp)
    | ok unit =>
      rw [hv] at h
      obtain rfl : acc2 = _ := by simpa using h.symm
      exact ⟨rfl, by simp [hu]⟩

/-- The body block pushes no history entry and leaves the entry list as is. -/
theorem planBody_char {u : UpdateInput} {acc acc2 : PlanAcc}
    (h : planBody u acc = .ok acc2) :
    acc2.1.history = acc.1.history ∧ acc2.2 = acc.2 := by
  unfold planBody at h
  cases hu : u.body with
  | none =>
    simp only [hu] at h
    obtain rfl : acc = acc2 := by simpa using h
    exact ⟨rfl, rfl⟩
  | some b =>
    simp only [hu] at h
    cases hv : validateBody b with
    | error e =>
      rw [hv] at h
      exact absurd h (by simp)
    | ok unit =>
      rw [hv] at h
      obtain rfl : acc2 = _ := by simpa using h.symm
      exact ⟨rfl, rfl⟩

/-- The status block: one status entry when the key is present. -/
theorem planStatus_char {entity : Entity} {u : UpdateInput} {now : String}
    {acc acc2 : PlanAcc} (h : planStatus entity u now acc = .ok acc2) :
    acc2.1.history = acc.1.history ∧
    acc2.2 = acc.2 ++ (match u.status with
      | none => []
      | some s => [{ timestamp := now, action := "status_changed", field := some "status",
                     old_value := some (JVal.str entity.status),
                     new_value := some (JVal.str s) }]) := by
  unfold planStatus at h
  cases hu : u.status with
  | none =>
    simp only [hu] at h
    obtain rfl : acc = acc2 := by simpa using h
    simp [hu]
  | some s =>
    simp only [hu] at h
    cases hv : validateStatus s entity.type with
    | error e =>
      rw [hv] at h
      exact absurd h (by simp)
    | ok unit =>
      rw [hv] at h
      obtain rfl : acc2 = _ := by simpa using h.symm
      constructor
      · split_ifs <;> rfl
      · simp [hu]

/-- The priority block: one priority entry carrying the validated value. -/
theorem planPriority_char {entity : Entity} {u : UpdateInput} {now : String}
    {acc acc2 : PlanAcc} (h : planPriority entity u now acc = .ok acc2) :
    acc2.1.history = acc.1.history ∧
    acc2.2 = acc.2 ++ (match u.priority with
      | none => []
      | some p =>
        match validatePriority p with
        | .error _ => []
        | .ok n => [{ timestamp := now, action := "priority_changed", field := some "priority",
                      old_value := some (JVal.num entity.priority),
                      new_value := some (JVal.num n) }]) ∧
    (∀ p, u.priority = some p → ∃ n, validatePriority p = .ok n) := by
  unfold planPriority at h
  cases hu : u.priority with
  | none =>
    simp only [hu] at h
    obtain rfl : acc = acc2 := by simpa using h
    simp [hu]
  | some p =>
    simp only [hu] at h
    cases hv : validatePriority p with
    | error e =>
      rw [hv] at h
      exact absurd h (by simp)
    | ok n =>
      rw [hv] at h
      obtain rfl : acc2 = _ := by simpa using h.symm
      refine ⟨rfl, by simp [hu, hv], ?_⟩
      intro p2 hp2
      obtain rfl : p = p2 := by simpa using hp2
      exact ⟨n, hv⟩

/-- The government block: one gov entry carrying the resolved reference. -/
theorem planGov_char {gs : List Gov} {entity : Entity} {u : UpdateInput} {now : String}
    {acc acc2 : PlanAcc} (h : planGov gs entity u now acc = .ok acc2) :
    acc2.1.history = acc.1.history ∧
    acc2.2 = acc.2 ++ (match u.gov_id with
      | none => []
      | some g =>
        match resolveGov gs g with
        | .error _ => []
        | .ok govId => [{ timestamp := now,
                          action := if govId.isSome then "assigned" else "unassigned",
                          field := some "gov_id",
                          old_value := some (jvalOfOptStr entity.gov_id),
                          new_value := some (jvalOfOptStr govId) }]) ∧
    (∀ g, u.gov_id = some g → ∃ ng, resolveGov gs g = .ok ng) := by
  unfold planGov at h
  cases hu : u.gov_id with
  | none =>
    simp only [hu] at h
    obtain rfl : acc = acc2 := by simpa using h
    simp [hu]
  | some g =>
    simp only [hu] at h
    cases hv : resolveGov gs g with
    | error e =>
      rw [hv] at h
      exact absurd h (by simp)
    | ok ng =>
      rw [hv] at h
      obtain rfl : acc2 = _ := by simpa using h.symm
      refine ⟨rfl, by simp [hu, hv], ?_⟩
      intro g2 hg2
      obtain rfl : g = g2 := by simpa using hg2
      exact ⟨ng, hv⟩

/-- The relations block: one relations entry whose new value is the
(successfully re-validated, hence unchanged) input array. -/
theorem planRelations_char {st : List Entity} {entity : Entity} {u : UpdateInput}
    {now : String} {acc acc2 : PlanAcc}
    (h : planRelations st entity u now acc = .ok acc2) :
    acc2.1.history = acc.1.history ∧
    acc2.2 = acc.2 ++ (match u.relations with
      | none => []
      | some rs =>
        match rs.mapM (fun rel => validateRelation st rel entity.type) with
        | .error _ => []
        | .ok relations => [{ timestamp := now, action := "relations_changed",
                              field := some "relations",
                              old_value := some (JVal.rels entity.relations),
                              new_value := some (JVal.rels relations) }]) ∧
    (∀ rs, u.relations = some rs →
      rs.mapM (fun rel => validateRelation st rel entity.type) = .ok rs) := by
  unfold planRelations at h
  cases hu : u.relations with
  | none =>
    simp only [hu] at h
    obtain rfl : acc = acc2 := by simpa using h
    simp [hu]
  | some rs =>
    simp only [hu] at h
    cases hv : rs.mapM (fun rel => validateRelation st rel entity.type) with
    | error e =>
      rw [hv] at h
      exact absurd h (by simp)
    | ok relations =>
      rw [hv] at h
      obtain rfl : acc2 = _ := by simpa using h.symm
      refine ⟨rfl, by simp only [hu, hv], ?_⟩
      intro rs2 hrs2
      obtain rfl : rs = rs2 := by simpa using hrs2
      rw [hv, mapM_validateRelation_id hv]

/-- The location block: no history contribution. -/
theorem planLocation_char {entity : Entity} {u : UpdateInput} {acc acc2 : PlanAcc}
    (h : planLocation entity u acc = .ok acc2) :
    acc2.1.history = acc.1.history ∧ acc2.2 = acc.2 := by
  unfold planLocation at h
  by_cases ht : entity.type = "problem"
  · rw [if_pos ht] at h
    cases hu : u.location with
    | none =>
      simp only [hu] at h
      obtain rfl : acc = acc2 := by simpa using h
      exact ⟨rfl, rfl⟩
    | some lraw =>
      simp only [hu] at h
      cases hv : validateLocation lraw with
      | error e =>
        rw [hv] at h
        exact absurd h (by simp)
      | ok v =>
        rw [hv] at h
        obtain rfl : acc2 = _ := by simpa using h.symm
        exact ⟨rfl, rfl⟩
  · rw [if_neg ht] at h
    obtain rfl : acc = acc2 := by simpa using h
    exact ⟨rfl, rfl⟩

/-- The action / idea passthrough blocks do not touch the history field. -/
theorem planActionIdea_history (entity : Entity) (u : UpdateInput) (a : Allowed) :
    (planActionIdea entity u a).history = a.history := by
  unfold planActionIdea
  split_ifs <;>
    cases u.assignee <;> cases u.due_date <;> cases u.support_count <;>
      cases u.supporters <;> cases u.ai_classification <;> rfl

/-- The metadata block does not touch the history field. -/
theorem planMetadata_history (entity : Entity) (u : UpdateInput) (a : Allowed) :
    (planMetadata entity u a).history = a.history := by
  unfold planMetadata
  cases u.metadata <;> rfl

/-- `fldFilter` distributes over list append. -/
theorem fldFilter_append (a b : List HistEntry) (f : String) :
    fldFilter (a ++ b) f = fldFilter a f ++ fldFilter b f := by
  simp [fldFilter]

/-- Filtering the title delta for the title field keeps it whole. -/
theorem fldFilter_deltaTitle_self (entity : Entity) (u : UpdateInput) (now : String) :
    fldFilter (deltaTitle entity u now) "title" = deltaTitle entity u now := by
  cases hu : u.title <;> simp [deltaTitle, fldFilter, hu]

/-- Filtering the title delta for any other field drops it. -/
theorem fldFilter_deltaTitle_ne (entity : Entity) (u : UpdateInput) (now f : String)
    (hf : f ≠ "title") : fldFilter (deltaTitle entity u now) f = [] := by
  cases hu : u.title <;> simp [deltaTitle, fldFilter, hu, Ne.symm hf]

/-- Filtering the status delta for the status field keeps it whole. -/
theorem fldFilter_deltaStatus_self (entity : Entity) (u : UpdateInput) (now : String) :
    fldFilter (deltaStatus entity u now) "status" = deltaStatus entity u now := by
  cases hu : u.status <;> simp [deltaStatus, fldFilter, hu]

/-- Filtering the status delta for any other field drops it. -/
theorem fldFilter_deltaStatus_ne (entity : Entity) (u : UpdateInput) (now f : String)
    (hf : f ≠ "status") : fldFilter (deltaStatus entity u now) f = [] := by
  cases hu : u.status <;> simp [deltaStatus, fldFilter, hu, Ne.symm hf]

/-- Filtering the priority delta for the priority field keeps it whole. -/
theorem fldFilter_deltaPriority_self (entity : Entity) (u : UpdateInput) (now : String) :
    fldFilter (deltaPriority entity u now) "priority" = deltaPriority entity u now := by
  cases hu : u.priority with
  | none => simp [deltaPriority, fldFilter, hu]
  | some p => cases hv : validatePriority p <;> simp [deltaPriority, fldFilter, hu, hv]

/-- Filtering the priority delta for any other field drops it. -/
theorem fldFilter_deltaPriority_ne (entity : Entity) (u : UpdateInput) (now f : String)
    (hf : f ≠ "priority") : fldFilter (deltaPriority entity u now) f = [] := by
  cases hu : u.priority with
  | none => simp [deltaPriority, fldFilter, hu]
  | some p =>
    cases hv : validatePriority p <;>
      simp [deltaPriority, fldFilter, hu, hv, Ne.symm hf]

/-- Filtering the government delta for the gov field keeps it whole. -/
theorem fldFilter_deltaGov_self (gs : List Gov) (entity : Entity) (u : UpdateInput)
    (now : String) :
    fldFilter (deltaGov gs entity u now) "gov_id" = deltaGov gs entity u now := by
  cases hu : u.gov_id with
  | none => simp [deltaGov, fldFilter, hu]
  | some g => cases hv : resolveGov gs g <;> simp [deltaGov, fldFilter, hu, hv]

/-- Filtering the government delta for any other field drops it. -/
theorem fldFilter_deltaGov_ne (gs : List Gov) (entity : Entity) (u : UpdateInput)
    (now f : String) (hf : f ≠ "gov_id") :
    fldFilter (deltaGov gs entity u now) f = [] := by
  cases hu : u.gov_id with
  | none => simp [deltaGov, fldFilter, hu]
  | some g => cases hv : resolveGov gs g <;> simp [deltaGov, fldFilter, hu, hv, Ne.symm hf]

/-- Filtering the relations delta for the relations field keeps it whole. -/
theorem fldFilter_deltaRelations_self (st : List Entity) (entity : Entity)
    (u : UpdateInput) (now : String) :
    fldFilter (deltaRelations st entity u now) "relations" =
      deltaRelations st entity u now := by
  cases hu : u.relations with
  | none => simp [deltaRelations, fldFilter, hu]
  | some rs =>
    cases hv : rs.mapM (fun rel => validateRelation st rel entity.type) <;>
      simp only [deltaRelations, hu, hv] <;> simp [fldFilter]

/-- Filtering the relations delta for any other field drops it. -/
theorem fldFilter_deltaRelations_ne (st : List Entity) (entity : Entity)
    (u : UpdateInput) (now f : String) (hf : f ≠ "relations") :
    fldFilter (deltaRelations st entity u now) f = [] := by
  cases hu : u.relations with
  | none => simp [deltaRelations, fldFilter, hu]
  | some rs =>
    cases hv : rs.mapM (fun rel => validateRelation st rel entity.type) <;>
      simp only [deltaRelations, hu, hv] <;> simp [fldFilter, Ne.symm hf]

/-- Master characterization: a successful `updatePlan` produces a record whose
merged history is the entity history extended by exactly the per-field delta
(in source push order), and every validator the plan consulted succeeded. -/
theorem updatePlan_history {gs : List Gov} {st : List Entity} {entity : Entity}
    {u : UpdateInput} {now : String} {au : Allowed}
    (h : updatePlan gs st entity u now = .ok au) :
    (applyUpdates entity au now).history =
      entity.history ++ expectedHistoryDelta gs st entity u now ∧
    (∀ p, u.priority = some p → ∃ n, validatePriority p = .ok n) ∧
    (∀ g, u.gov_id = some g → ∃ ng, resolveGov gs g = .ok ng) ∧
    (∀ rs, u.relations = some rs →
      rs.mapM (fun rel => validateRelation st rel entity.type) = .ok rs) := by
  unfold updatePlan at h
  cases h1 : planTitle entity u now ({}, []) with
  | error e => rw [h1] at h; exact absurd h (by simp [Except.bind])
  | ok acc1 =>
  rw [h1] at h
  simp only [Except.bind] at h
  cases h2 : planBody u acc1 with
  | error e => rw [h2] at h; exact absurd h (by simp [Except.bind])
  | ok acc2 =>
  rw [h2] at h
  simp only [Except.bind] at h
  cases h3 : planStatus entity u now acc2 with
  | error e => rw [h3] at h; exact absurd h (by simp [Except.bind])
  | ok acc3 =>
  rw [h3] at h
  simp only [Except.bind] at h
  cases h4 : planPriority entity u now acc3 with
  | error e => rw [h4] at h; exact absurd h (by simp [Except.bind])
  | ok acc4 =>
  rw [h4] at h
  simp only [Except.bind] at h
  cases h5 : planGov gs entity u now acc4 with
  | error e => rw [h5] at h; exact absurd h (by simp [Except.bind])
  | ok acc5 =>
  rw [h5] at h
  simp only [Except.bind] at h
  cases h6 : planRelations st entity u now acc5 with
  | error e => rw [h6] at h; exact absurd h (by simp [Except.bind])
  | ok acc6 =>
  rw [h6] at h
  simp only [Except.bind] at h
  cases h7 : planLocation entity u acc6 with
  | error e => rw [h7] at h; exact absurd h (by simp [Except.bind])
  | ok acc7 =>
  rw [h7] at h
  simp only [Except.bind] at h
  have hau : au = (if acc7.2 ≠ [] then
      { planMetadata entity u (planActionIdea entity u acc7.1) with
        history := some (entity.history ++ acc7.2) }
      else planMetadata entity u (planActionIdea entity u acc7.1)) :=
    (Except.ok.inj h).symm
  obtain ⟨ht1, ht2⟩ : acc1.1.history = none ∧ acc1.2 = deltaTitle entity u now :=
    planTitle_char h1
  obtain ⟨hb1, hb2⟩ := planBody_char h2
  obtain ⟨hs1, hs2⟩ : acc3.1.history = acc2.1.history ∧
      acc3.2 = acc2.2 ++ deltaStatus entity u now := planStatus_char h3
  obtain ⟨hp1, hp2, hp3⟩ : acc4.1.history = acc3.1.history ∧
      acc4.2 = acc3.2 ++ deltaPriority entity u now ∧
      (∀ p, u.priority = some p → ∃ n, validatePriority p = .ok n) :=
    planPriority_char h4
  obtain ⟨hg1, hg2, hg3⟩ : acc5.1.history = acc4.1.history ∧
      acc5.2 = acc4.2 ++ deltaGov gs entity u now ∧
      (∀ g, u.gov_id = some g → ∃ ng, resolveGov gs g = .ok ng) :=
    planGov_char h5
  obtain ⟨hr1, hr2, hr3⟩ : acc6.1.history = acc5.1.history ∧
      acc6.2 = acc5.2 ++ deltaRelations st entity u now ∧
      (∀ rs, u.relations = some rs →
        rs.mapM (fun rel => validateRelation st rel entity.type) = .ok rs) :=
    planRelations_char h6
  obtain ⟨hl1, hl2⟩ := planLocation_char h7
  have hhist0 : acc7.1.history = none := by
    rw [hl1, hr1, hg1, hp1, hs1, hb1, ht1]
  have hdelta : acc7.2 = expectedHistoryDelta gs st entity u now := by
    rw [hl2, hr2, hg2, hp2, hs2, hb2, ht2]
    simp only [expectedHistoryDelta, List.append_assoc]
  have hA2 : (planMetadata entity u (planActionIdea entity u acc7.1)).history = none := by
    rw [planMetadata_history, planActionIdea_history, hhist0]
  refine ⟨?_, hp3, hg3, hr3⟩
  have hget : (applyUpdates entity au now).history = au.history.getD entity.history := rfl
  rw [hget, hau]
  by_cases hne : acc7.2 = []
  · rw [if_neg (not_not_intro hne), hA2, ← hdelta, hne]
    simp
  · rw [if_pos hne, hdelta]
    rfl

/-- C4 (counterexample): a body-only update changes the stored body but appends
no history entry at all — the body branch of `update` pushes nothing — refuting
the claim that every tracked-field change (body included) appends exactly one
entry. -/
theorem claim_C4_history_counterexample :
    ((update [] [bodyE] "ga-b" { body := some (some "new body") } "t9").1.map
        (Option.map fun e => (e.body, e.history))) =
      .ok (some (some "new body", bodyE.history)) ∧
    bodyE.body ≠ some "new body" := by
  exact ⟨rfl, by decide⟩

/-- C4 (amended): on a successful `update` of an existing entity the new
history is the old history extended by exactly one entry per present tracked
key among title, status, priority, gov assignment and relations — each entry
recording the correct old and new values — while a body change appends no
entry. -/
theorem claim_C4_history_amended (gs : List Gov) (st : List Entity) (id now : String)
    (u : UpdateInput) (entity e2 : Entity) (st2 : List Entity)
    (hnodup : IdsNodup st) (hf : findById st id = some entity)
    (hok : update gs st id u now = (.ok (some e2), st2)) :
    e2.history = entity.history ++ expectedHistoryDelta gs st entity u now ∧
    (∀ t, u.title = some t →
      fldFilter e2.history "title" = fldFilter entity.history "title" ++
        [{ timestamp := now, action := "title_changed", field := some "title",
           old_value := some (JVal.str entity.title),
           new_value := some (JVal.str (jsTrim t)) }]) ∧
    (∀ s, u.status = some s →
      fldFilter e2.history "status" = fldFilter entity.history "status" ++
        [{ timestamp := now, action := "status_changed", field := some "status",
           old_value := some (JVal.str entity.status),
           new_value := some (JVal.str s) }]) ∧
    (∀ p, u.priority = some p → ∃ n, validatePriority p = .ok n ∧
      fldFilter e2.history "priority" = fldFilter entity.history "priority" ++
        [{ timestamp := now, action := "priority_changed", field := some "priority",
           old_value := some (JVal.num entity.priority),
           new_value := some (JVal.num n) }]) ∧
    (∀ g, u.gov_id = some g → ∃ ng, resolveGov gs g = .ok ng ∧
      fldFilter e2.history "gov_id" = fldFilter entity.history "gov_id" ++
        [{ timestamp := now, action := if ng.isSome then "assigned" else "unassigned",
           field := some "gov_id",
           old_value := some (jvalOfOptStr entity.gov_id),
           new_value := some (jvalOfOptStr ng) }]) ∧
    (∀ rs, u.relations = some rs →
      fldFilter e2.history "relations" = fldFilter entity.history "relations" ++
        [{ timestamp := now, action := "relations_changed", field := some "relations",
           old_value := some (JVal.rels entity.relations),
           new_value := some (JVal.rels rs) }]) ∧
    fldFilter e2.history "body" = fldFilter entity.history "body" := by
  obtain ⟨entity0, au, hf0, hplan, he2, hst2⟩ := update_ok_inv hnodup hok
  rw [hf0] at hf
  obtain rfl : entity = entity0 := (Option.some.inj hf).symm
  obtain ⟨hhist, hpr, hgov, hrel⟩ := updatePlan_history hplan
  subst he2
  refine ⟨hhist, ?_, ?_, ?_, ?_, ?_, ?_⟩
  · intro t ht
    rw [hhist, fldFilter_append]
    simp only [expectedHistoryDelta, fldFilter_append]
    rw [fldFilter_deltaTitle_self,
        fldFilter_deltaStatus_ne entity u now "title" (by decide),
        fldFilter_deltaPriority_ne entity u now "title" (by decide),
        fldFilter_deltaGov_ne gs entity u now "title" (by decide),
        fldFilter_deltaRelations_ne st entity u now "title" (by decide)]
    simp [deltaTitle, ht]
  · intro s hs
    rw [hhist, fldFilter_append]
    simp only [expectedHistoryDelta, fldFilter_append]
    rw [fldFilter_deltaStatus_self,
        fldFilter_deltaTitle_ne entity u now "status" (by decide),
        fldFilter_deltaPriority_ne entity u now "status" (by decide),
        fldFilter_deltaGov_ne gs entity u now "status" (by decide),
        fldFilter_deltaRelations_ne st entity u now "status" (by decide)]
    simp [deltaStatus, hs]
  · intro p hp
    obtain ⟨n, hn⟩ := hpr p hp
    refine ⟨n, hn, ?_⟩
    rw [hhist, fldFilter_append]
    simp only [expectedHistoryDelta, fldFilter_append]
    rw [fldFilter_deltaPriority_self,
        fldFilter_deltaTitle_ne entity u now "priority" (by decide),
        fldFilter_deltaStatus_ne entity u now "priority" (by decide),
        fldFilter_deltaGov_ne gs entity u now "priority" (by decide),
        fldFilter_deltaRelations_ne st entity u now "priority" (by decide)]
    simp [deltaPriority, hp, hn]
  · intro g hg
    obtain ⟨ng, hng⟩ := hgov g hg
    refine ⟨ng, hng, ?_⟩
    rw [hhist, fldFilter_append]
    simp only [expectedHistoryDelta, fldFilter_append]
    rw [fldFilter_deltaGov_self,
        fldFilter_deltaTitle_ne entity u now "gov_id" (by decide),
        fldFilter_deltaStatus_ne entity u now "gov_id" (by decide),
        fldFilter_deltaPriority_ne entity u now "gov_id" (by decide),
        fldFilter_deltaRelations_ne st entity u now "gov_id" (by decide)]
    simp [deltaGov, hg, hng]
  · intro rs hr
    have hmap := hrel rs hr
    rw [hhist, fldFilter_append]
    simp only [expectedHistoryDelta, fldFilter_append]
    rw [fldFilter_deltaRelations_self,
        fldFilter_deltaTitle_ne entity u now "relations" (by decide),
        fldFilter_deltaStatus_ne entity u now "relations" (by decide),
        fldFilter_deltaPriority_ne entity u now "relations" (by decide),
        fldFilter_deltaGov_ne gs entity u now "relations" (by decide)]
    simp only [deltaRelations, hr, hmap]
    simp
  · rw [hhist, fldFilter_append]
    simp only [expectedHistoryDelta, fldFilter_append]
    rw [fldFilter_deltaTitle_ne entity u now "body" (by decide),
        fldFilter_deltaStatus_ne entity u now "body" (by decide),
        fldFilter_deltaPriority_ne entity u now "body" (by decide),
        fldFilter_deltaGov_ne gs entity u now "body" (by decide),
        fldFilter_deltaRelations_ne st entity u now "body" (by decide)]
    simp

/-- C4 (amended, witness): a concrete title update on `bodyE` appends exactly
the one title entry and leaves the body trail unchanged. -/
theorem claim_C4_history_amended_witness :
    ∃ e2 st2, update [] [bodyE] "ga-b" { title := some " T2 " } "t9" =
        (.ok (some e2), st2) ∧
      fldFilter e2.history "title" = fldFilter bodyE.history "title" ++
        [{ timestamp := "t9", action := "title_changed", field := some "title",
           old_value := some (JVal.str bodyE.title),
           new_value := some (JVal.str (jsTrim " T2 ")) }] ∧
      fldFilter e2.history "body" = fldFilter bodyE.history "body" := by
  refine ⟨_, _, rfl, ?_, ?_⟩
  · exact (claim_C4_history_amended [] [bodyE] "ga-b" "t9" { title := some " T2 " }
      bodyE _ _ (by decide) rfl rfl).2.1 " T2 " rfl
  · exact (claim_C4_history_amended [] [bodyE] "ga-b" "t9" { title := some " T2 " }
      bodyE _ _ (by decide) rfl rfl).2.2.2.2.2.2

/-- The title block leaves the relations override untouched. -/
theorem planTitle_rels {entity : Entity} {u : UpdateInput} {now : String}
    {acc acc2 : PlanAcc} (h : planTitle entity u now acc = .ok acc2) :
    acc2.1.relations = acc.1.relations := by
  unfold planTitle at h
  cases hu : u.title with
  | none =>
    simp only [hu] at h
    obtain rfl : acc = acc2 := by simpa using h
    rfl
  | some t =>
    simp only [hu] at h
    cases hv : validateTitle t with
    | error e => rw [hv] at h; exact absurd h (by simp)
    | ok unit =>
      rw [hv] at h
      obtain rfl : acc2 = _ := by simpa using h.symm
      rfl

/-- The body block leaves the relations override untouched. -/
theorem planBody_rels {u : UpdateInput} {acc acc2 : PlanAcc}
    (h : planBody u acc = .ok acc2) : acc2.1.relations = acc.1.relations := by
  unfold planBody at h
  cases hu : u.body with
  | none =>
    simp only [hu] at h
    obtain rfl : acc = acc2 := by simpa using h
    rfl
  | some b =>
    simp only [hu] at h
    cases hv : validateBody b with
    | error e => rw [hv] at h; exact absurd h (by simp)
    | ok unit =>
      rw [hv] at h
      obtain rfl : acc2 = _ := by simpa using h.symm
      rfl

/-- The status block leaves the relations override untouched. -/
theorem planStatus_rels {entity : Entity} {u : UpdateInput} {now : String}
    {acc acc2 : PlanAcc} (h : planStatus entity u now acc = .ok acc2) :
    acc2.1.relations = acc.1.relations := by
  unfold planStatus at h
  cases hu : u.status with
  | none =>
    simp only [hu] at h
    obtain rfl : acc = acc2 := by simpa using h
    rfl
  | some s =>
    simp only [hu] at h
    cases hv : validateStatus s entity.type with
    | error e => rw [hv] at h; exact absurd h (by simp)
    | ok unit =>
      rw [hv] at h
      obtain rfl : acc2 = _ := by simpa using h.symm
      split_ifs <;> rfl

/-- The priority block leaves the relations override untouched. -/
theorem planPriority_rels {entity : Entity} {u : UpdateInput} {now : String}
    {acc acc2 : PlanAcc} (h : planPriority entity u now acc = .ok acc2) :
    acc2.1.relations = acc.1.relations := by
  unfold planPriority at h
  cases hu : u.priority with
  | none =>
    simp only [hu] at h
    obtain rfl : acc = acc2 := by simpa using h
    rfl
  | some p =>
    simp only [hu] at h
    cases hv : validatePriority p with
    | error e => rw [hv] at h; exact absurd h (by simp)
    | ok n =>
      rw [hv] at h
      obtain rfl : acc2 = _ := by simpa using h.symm
      rfl

/-- The government block leaves the relations override untouched. -/
theorem planGov_rels {gs : List Gov} {entity : Entity} {u : UpdateInput} {now : String}
    {acc acc2 : PlanAcc} (h : planGov gs entity u now acc = .ok acc2) :
    acc2.1.relations = acc.1.relations := by
  unfold planGov at h
  cases hu : u.gov_id with
  | none =>
    simp only [hu] at h
    obtain rfl : acc = acc2 := by simpa using h
    rfl
  | some g =>
    simp only [hu] at h
    cases hv : resolveGov gs g with
    | error e => rw [hv] at h; exact absurd h (by simp)
    | ok ng =>
      rw [hv] at h
      obtain rfl : acc2 = _ := by simpa using h.symm
      rfl

/-- The location block leaves the relations override untouched. -/
theorem planLocation_rels {entity : Entity} {u : UpdateInput} {acc acc2 : PlanAcc}
    (h : planLocation entity u acc = .ok acc2) :
    acc2.1.relations = acc.1.relations := by
  unfold planLocation at h
  by_cases ht : entity.type = "problem"
  · rw [if_pos ht] at h
    cases hu : u.location with
    | none =>
      simp only [hu] at h
      obtain rfl : acc = acc2 := by simpa using h
      rfl
    | some lraw =>
      simp only [hu] at h
      cases hv : validateLocation lraw with
      | error e => rw [hv] at h; exact absurd h (by simp)
      | ok v =>
        rw [hv] at h
        obtain rfl : acc2 = _ := by simpa using h.symm
        rfl
  · rw [if_neg ht] at h
    obtain rfl : acc = acc2 := by simpa using h
    rfl

/-- The action / idea passthrough blocks leave the relations override
untouched. -/
theorem planActionIdea_rels (entity : Entity) (u : UpdateInput) (a : Allowed) :
    (planActionIdea entity u a).relations = a.relations := by
  unfold planActionIdea
  split_ifs <;>
    cases u.assignee <;> cases u.due_date <;> cases u.support_count <;>
      cases u.supporters <;> cases u.ai_classification <;> rfl

/-- The metadata block leaves the relations override untouched. -/
theorem planMetadata_rels (entity : Entity) (u : UpdateInput) (a : Allowed) :
    (planMetadata entity u a).relations = a.relations := by
  unfold planMetadata
  cases u.metadata <;> rfl

/-- The relations block, on success, sets the relations override to the
revalidated array. -/
theorem planRelations_sets {st : List Entity} {entity : Entity} {u : UpdateInput}
    {now : String} {acc acc2 : PlanAcc} {rs : List Relation}
    (h : planRelations st entity u now acc = .ok acc2) (hu : u.relations = some rs) :
    ∃ out, rs.mapM (fun rel => validateRelation st rel entity.type) = .ok out ∧
      acc2.1.relations = some out := by
  unfold planRelations at h
  simp only [hu] at h
  cases hv : rs.mapM (fun rel => validateRelation st rel entity.type) with
  | error e => rw [hv] at h; exact absurd h (by simp)
  | ok out =>
    rw [hv] at h
    obtain rfl : acc2 = _ := by simpa using h.symm
    exact ⟨out, rfl, rfl⟩

/-- A successful `updatePlan` with a relations payload carries the validated
array into the allowed-update record. -/
theorem updatePlan_relations {gs : List Gov} {st : List Entity} {entity : Entity}
    {u : UpdateInput} {now : String} {au : Allowed} {rs : List Relation}
    (h : updatePlan gs st entity u now = .ok au) (hu : u.relations = some rs) :
    ∃ out, rs.mapM (fun rel => validateRelation st rel entity.type) = .ok out ∧
      au.relations = some out := by
  unfold updatePlan at h
  cases h1 : planTitle entity u now ({}, []) with
  | error e => rw [h1] at h; exact absurd h (by simp [Except.bind])
  | ok acc1 =>
  rw [h1] at h
  simp only [Except.bind] at h
  cases h2 : planBody u acc1 with
  | error e => rw [h2] at h; exact absurd h (by simp [Except.bind])
  | ok acc2 =>
  rw [h2] at h
  simp only [Except.bind] at h
  cases h3 : planStatus entity u now acc2 with
  | error e => rw [h3] at h; exact absurd h (by simp [Except.bind])
  | ok acc3 =>
  rw [h3] at h
  simp only [Except.bind] at h
  cases h4 : planPriority entity u now acc3 with
  | error e => rw [h4] at h; exact absurd h (by simp [Except.bind])
  | ok acc4 =>
  rw [h4] at h
  simp only [Except.bind] at h
  cases h5 : planGov gs entity u now acc4 with
  | error e => rw [h5] at h; exact absurd h (by simp [Except.bind])
  | ok acc5 =>
  rw [h5] at h
  simp only [Except.bind] at h
  cases h6 : planRelations st entity u now acc5 with
  | error e => rw [h6] at h; exact absurd h (by simp [Except.bind])
  | ok acc6 =>
  rw [h6] at h
  simp only [Except.bind] at h
  cases h7 : planLocation entity u acc6 with
  | error e => rw [h7] at h; exact absurd h (by simp [Except.bind])
  | ok acc7 =>
  rw [h7] at h
  simp only [Except.bind] at h
  have hau : au = (if acc7.2 ≠ [] then
      { planMetadata entity u (planActionIdea entity u acc7.1) with
        history := some (entity.history ++ acc7.2) }
      else planMetadata entity u (planActionIdea entity u acc7.1)) :=
    (Except.ok.inj h).symm
  obtain ⟨out, hmap, hset⟩ := planRelations_sets h6 hu
  have h7r : acc7.1.relations = some out := by
    rw [planLocation_rels h7, hset]
  have hau_rels : au.relations = acc7.1.relations := by
    rw [hau]
    by_cases hne : acc7.2 ≠ []
    · rw [if_pos hne]
      show (planMetadata entity u (planActionIdea entity u acc7.1)).relations = _
      rw [planMetadata_rels, planActionIdea_rels]
    · rw [if_neg hne]
      rw [planMetadata_rels, planActionIdea_rels]
  exact ⟨out, hmap, by rw [hau_rels, h7r]⟩

/-- C8 (counterexample): `dupE` already carries the edge
`(depends_on, ga-zz)`, yet re-adding that same edge fails with `NotFoundError`
(the dangling target is rejected first), not `ConflictError`. -/
theorem claim_C8_duplicate_counterexample :
    dupE.relations.any (fun r => r.type == "depends_on" && r.target == "ga-zz") = true ∧
    addRelation [] [dupE] "ga-d" "depends_on" "ga-zz" "t7" = (.error .notFound, [dupE]) ∧
    Err.notFound ≠ Err.conflict := by
  exact ⟨by decide, by rfl, by decide⟩

/-- `addRelationTo` when the edge fails validation: the error is returned and
the store is untouched. -/
theorem addRelationTo_error_case {gs : List Gov} {st : List Entity}
    {sourceId : String} {entity : Entity} {relationType targetId now : String}
    {e : Err}
    (hv : validateRelation st { type := relationType, target := targetId }
      entity.type = .error e) :
    addRelationTo gs st sourceId entity relationType targetId now = (.error e, st) := by
  unfold addRelationTo
  rw [hv]

/-- `addRelationTo` when the edge validates: the duplicate test decides
between the conflict error and the relations-array update. -/
theorem addRelationTo_ok_case {gs : List Gov} {st : List Entity}
    {sourceId : String} {entity : Entity} {relationType targetId now : String}
    (hv : validateRelation st { type := relationType, target := targetId }
      entity.type = .ok { type := relationType, target := targetId }) :
    addRelationTo gs st sourceId entity relationType targetId now =
      if entity.relations.any (fun r => r.type == relationType && r.target == targetId)
      then (.error .conflict, st)
      else update gs st sourceId
        { relations := some (entity.relations ++
            [{ type := relationType, target := targetId }]) } now := by
  unfold addRelationTo
  rw [hv]

/-- C8 (amended): when the source entity already carries the `(type, target)`
edge, `addRelation` always fails and leaves the store unchanged — with
`ConflictError` exactly when the edge revalidates (in particular the target
still exists), but with the validation error (for instance `NotFoundError` on
a dangling target) otherwise; and a successful `addRelation` implies the edge
was absent and appends exactly that edge to the stored relations array. -/
theorem claim_C8_duplicates_amended (gs : List Gov) (st : List Entity)
    (sourceId relationType targetId now : String) (entity : Entity)
    (hnodup : IdsNodup st) (hf : findById st sourceId = some entity) :
    (entity.relations.any (fun r => r.type == relationType && r.target == targetId) =
        true →
      (∃ e, (addRelation gs st sourceId relationType targetId now).1 = .error e) ∧
      (addRelation gs st sourceId relationType targetId now).2 = st ∧
      (validateRelation st { type := relationType, target := targetId } entity.type =
          .ok { type := relationType, target := targetId } →
        addRelation gs st sourceId relationType targetId now = (.error .conflict, st))) ∧
    (∀ e2 st2,
      addRelation gs st sourceId relationType targetId now = (.ok (some e2), st2) →
      entity.relations.any (fun r => r.type == relationType && r.target == targetId) =
        false ∧
      e2.relations = entity.relations ++ [{ type := relationType, target := targetId }]) := by
  have hchar : addRelation gs st sourceId relationType targetId now =
      addRelationTo gs st sourceId entity relationType targetId now := by
    unfold addRelation
    rw [hf]
  constructor
  · intro hdup
    rw [hchar]
    cases hv : validateRelation st { type := relationType, target := targetId }
        entity.type with
    | error e =>
      rw [addRelationTo_error_case hv]
      exact ⟨⟨e, rfl⟩, rfl, fun hok => absurd hok (by simp)⟩
    | ok relation =>
      obtain rfl := validateRelation_ok_eq hv
      rw [addRelationTo_ok_case hv, if_pos hdup]
      exact ⟨⟨.conflict, rfl⟩, rfl, fun hok2 => rfl⟩
  · intro e2 st2 hok
    rw [hchar] at hok
    cases hv : validateRelation st { type := relationType, target := targetId }
        entity.type with
    | error e =>
      rw [addRelationTo_error_case hv] at hok
      exact absurd hok (by simp)
    | ok relation =>
      obtain rfl := validateRelation_ok_eq hv
      rw [addRelationTo_ok_case hv] at hok
      cases hguard : entity.relations.any
          (fun r => r.type == relationType && r.target == targetId) with
      | true =>
        rw [if_pos hguard] at hok
        exact absurd hok (by simp)
      | false =>
        rw [if_neg (by simp [hguard])] at hok
        refine ⟨rfl, ?_⟩
        obtain ⟨entity0, au, hf0, hplan, he2, hst2⟩ := update_ok_inv hnodup hok
        rw [hf] at hf0
        obtain rfl : entity = entity0 := Option.some.inj hf0
        obtain ⟨out, hmap, hrels⟩ := updatePlan_relations hplan rfl
        have hout : out = entity.relations ++ [{ type := relationType, target := targetId }] :=
          mapM_validateRelation_id hmap
        rw [he2]
        show au.relations.getD entity.relations = _
        rw [hrels, hout]
        rfl

/-- C8 (amended, witness): on `dupStore` (edge present, target existing),
re-adding the same edge fails with precisely the conflict error and leaves the
store unchanged. -/
theorem claim_C8_duplicates_amended_witness :
    addRelation [] dupStore "ga-p" "depends_on" "ga-q" "t8" =
      (.error .conflict, dupStore) := by
  have h := (claim_C8_duplicates_amended [] dupStore "ga-p" "depends_on" "ga-q" "t8"
      { id := "ga-p", type := "action", title := "P", status := "open",
        relations := [⟨"depends_on", "ga-q"⟩] }
      (by decide) rfl).1 (by decide)
  exact h.2.2 (by rfl)

/-- A plain action with no relations, the unrelated link target. -/
def linkC : Entity :=
  { id := "ga-c", type := "action", title := "C", status := "open" }

/-- Three actions with the single dependency `cycA depends_on cycB`. -/
def linkStore : List Entity := [cycA, cycB, linkC]

/-- BFS one-step unfolding: the empty queue fails. -/
theorem bfsReach_nil (st : List Entity) (s : String) (visited : List String) :
    bfsReach st s visited [] = false := by
  rw [bfsReach.eq_def]

/-- BFS one-step unfolding: the source at the queue head succeeds. -/
theorem bfsReach_cons_src (st : List Entity) (s : String) (visited rest : List String) :
    bfsReach st s visited (s :: rest) = true := by
  rw [bfsReach.eq_def]
  simp

/-- BFS one-step unfolding: a visited head is skipped. -/
theorem bfsReach_cons_visited (st : List Entity) (s : String) (visited : List String)
    (c : String) (rest : List String) (h1 : ¬ c = s) (h2 : c ∈ visited) :
    bfsReach st s visited (c :: rest) = bfsReach st s visited rest := by
  rw [bfsReach.eq_def]
  simp only [if_neg h1, if_pos h2]

/-- BFS one-step unfolding: a dangling head is marked visited and dropped. -/
theorem bfsReach_cons_none (st : List Entity) (s : String) (visited : List String)
    (c : String) (rest : List String) (h1 : ¬ c = s) (h2 : c ∉ visited)
    (h3 : findById st c = none) :
    bfsReach st s visited (c :: rest) = bfsReach st s (c :: visited) rest := by
  rw [bfsReach.eq_def]
  simp only [if_neg h1, if_neg h2]
  split
  · rfl
  · rename_i current2 heq
    rw [h3] at heq
    exact absurd heq (by simp)

/-- BFS one-step unfolding: a found head is marked visited and its
unvisited dependency targets are pushed. -/
theorem bfsReach_cons_some (st : List Entity) (s : String) (visited : List String)
    (c : String) (rest : List String) (current : Entity) (h1 : ¬ c = s)
    (h2 : c ∉ visited) (h3 : findById st c = some current) :
    bfsReach st s visited (c :: rest) = bfsReach st s (c :: visited)
      (rest ++ (current.relations.filter fun rel =>
          decide (rel.type ∈ DEPENDENCY_RELATIONS) &&
          decide (rel.target ∉ c :: visited)).map (fun rel => rel.target)) := by
  rw [bfsReach.eq_def]
  simp only [if_neg h1, if_neg h2]
  split
  · rename_i heq
    rw [h3] at heq
    exact absurd heq (by simp)
  · rename_i current2 heq
    rw [h3] at heq
    obtain rfl : current = current2 := Option.some.inj heq
    rfl

/-- BFS soundness: a `true` answer exhibits a queue element that reaches the
source along dependency-forming edges. -/
theorem bfs_sound (st : List Entity) (sourceId : String) (visited queue : List String) :
    bfsReach st sourceId visited queue = true →
      ∃ q ∈ queue, DepReach st q sourceId := by
  induction visited, queue using bfsReach.induct st sourceId with
  | case1 visited =>
    intro h
    rw [bfsReach_nil] at h
    exact absurd h (by simp)
  | case2 visited rest =>
    intro h
    exact ⟨sourceId, by simp, DepReach.refl sourceId⟩
  | case3 visited currentId rest h1 h2 ih =>
    intro h
    rw [bfsReach_cons_visited st sourceId visited currentId rest h1 h2] at h
    obtain ⟨q, hq, hreach⟩ := ih h
    exact ⟨q, by simp [hq], hreach⟩
  | case4 visited currentId rest h1 h2 h3 ih =>
    intro h
    rw [bfsReach_cons_none st sourceId visited currentId rest h1 h2 h3] at h
    obtain ⟨q, hq, hreach⟩ := ih h
    exact ⟨q, by simp [hq], hreach⟩
  | case5 visited currentId rest h1 h2 current h3 ih =>
    intro h
    rw [bfsReach_cons_some st sourceId visited currentId rest current h1 h2 h3] at h
    obtain ⟨q, hq, hreach⟩ := ih h
    rcases List.mem_append.mp hq with hq1 | hq2
    · exact ⟨q, by simp [hq1], hreach⟩
    · obtain ⟨rel, hrelmem, rfl⟩ := List.mem_map.mp hq2
      have hrel2 := List.mem_filter.mp hrelmem
      have hconds : rel.type ∈ DEPENDENCY_RELATIONS ∧ rel.target ∉ currentId :: visited := by
        have := hrel2.2
        simpa using this
      refine ⟨currentId, by simp, ?_⟩
      exact DepReach.step current h3 rel hrel2.1 hconds.1 rfl hreach

/-- Inversion for `DepReach`: a reachability derivation is reflexivity or a
first dependency-forming edge followed by reachability. -/
theorem DepReach_inv {st : List Entity} {a c : String} (h : DepReach st a c) :
    a = c ∨ ∃ e, findById st a = some e ∧ ∃ r ∈ e.relations,
      r.type ∈ DEPENDENCY_RELATIONS ∧ DepReach st r.target c := by
  cases h with
  | refl a => exact Or.inl rfl
  | step e he r hr hdep htgt hbc =>
    exact Or.inr ⟨e, he, r, hr, hdep, by rw [htgt]; exact hbc⟩

/-- In `linkStore`, nothing is reachable from the relation-less `ga-c`
except itself. -/
theorem no_reach_test : ¬ DepReach linkStore "ga-c" "ga-b" := by
  intro h
  rcases DepReach_inv h with heq | ⟨e, he, r, hr, hd, hb⟩
  · exact absurd heq (by decide)
  · have he2 : findById linkStore "ga-c" = some linkC := by rfl
    rw [he2] at he
    obtain rfl : linkC = e := Option.some.inj he
    simp [linkC] at hr

/-- A dependency-successor-closed id set traps `DepReach`. -/
theorem closed_no_reach (st : List Entity) (visited : List String)
    (H2 : ∀ v ∈ visited, ∀ e, findById st v = some e → ∀ r ∈ e.relations,
      r.type ∈ DEPENDENCY_RELATIONS → r.target ∈ visited) :
    ∀ x y, DepReach st x y → x ∈ visited → y ∈ visited := by
  intro x y hreach
  induction hreach with
  | refl a => exact id
  | step e he r hr hdep htgt hbc ih =>
    intro ha
    refine ih ?_
    rw [← htgt]
    exact H2 _ ha e he r hr hdep

/-- BFS completeness invariant: when every dependency successor of a visited
id is visited or queued and the source is unvisited, a `false` answer means
no visited or queued id reaches the source. -/
theorem bfsReach_false_inv (st : List Entity) (sourceId : String)
    (visited queue : List String) :
    bfsReach st sourceId visited queue = false →
    sourceId ∉ visited →
    (∀ v ∈ visited, ∀ e, findById st v = some e → ∀ r ∈ e.relations,
      r.type ∈ DEPENDENCY_RELATIONS → r.target ∈ visited ∨ r.target ∈ queue) →
    ∀ x, x ∈ visited ∨ x ∈ queue → ¬ DepReach st x sourceId := by
  induction visited, queue using bfsReach.induct st sourceId with
  | case1 visited =>
    intro hfalse hs H2 x hx hreach
    have hxv : x ∈ visited := by
      rcases hx with h | h
      · exact h
      · exact absurd h (List.not_mem_nil x)
    have hclosed : ∀ v ∈ visited, ∀ e, findById st v = some e → ∀ r ∈ e.relations,
        r.type ∈ DEPENDENCY_RELATIONS → r.target ∈ visited := by
      intro v hv e he r hr hd
      rcases H2 v hv e he r hr hd with h | h
      · exact h
      · exact absurd h (List.not_mem_nil _)
    exact hs (closed_no_reach st visited hclosed x sourceId hreach hxv)
  | case2 visited rest =>
    intro hfalse
    rw [bfsReach_cons_src] at hfalse
    exact absurd hfalse (by simp)
  | case3 visited currentId rest h1 h2 ih =>
    intro hfalse hs H2 x hx hreach
    rw [bfsReach_cons_visited st sourceId visited currentId rest h1 h2] at hfalse
    have H2r : ∀ v ∈ visited, ∀ e, findById st v = some e → ∀ r ∈ e.relations,
        r.type ∈ DEPENDENCY_RELATIONS → r.target ∈ visited ∨ r.target ∈ rest := by
      intro v hv e he r hr hd
      rcases H2 v hv e he r hr hd with h | h
      · exact Or.inl h
      · rcases List.mem_cons.mp h with heq | h3
        · exact Or.inl (heq ▸ h2)
        · exact Or.inr h3
    refine ih hfalse hs H2r x ?_ hreach
    rcases hx with h | h
    · exact Or.inl h
    · rcases List.mem_cons.mp h with heq | h3
      · exact Or.inl (heq ▸ h2)
      · exact Or.inr h3
  | case4 visited currentId rest h1 h2 h3 ih =>
    intro hfalse hs H2 x hx hreach
    rw [bfsReach_cons_none st sourceId visited currentId rest h1 h2 h3] at hfalse
    have hs2 : sourceId ∉ currentId :: visited := by
      intro hmem
      rcases List.mem_cons.mp hmem with heq | hmem2
      · exact h1 heq.symm
      · exact hs hmem2
    have H2n : ∀ v ∈ currentId :: visited, ∀ e, findById st v = some e →
        ∀ r ∈ e.relations, r.type ∈ DEPENDENCY_RELATIONS →
        r.target ∈ currentId :: visited ∨ r.target ∈ rest := by
      intro v hv e he r hr hd
      rcases List.mem_cons.mp hv with heq | hv2
      · rw [heq, h3] at he
        exact absurd he (by simp)
      · rcases H2 v hv2 e he r hr hd with h | h
        · exact Or.inl (List.mem_cons_of_mem _ h)
        · rcases List.mem_cons.mp h with heq2 | h4
          · exact Or.inl (by simp [heq2])
          · exact Or.inr h4
    refine ih hfalse hs2 H2n x ?_ hreach
    rcases hx with h | h
    · exact Or.inl (List.mem_cons_of_mem _ h)
    · rcases List.mem_cons.mp h with heq | h4
      · exact Or.inl (by simp [heq])
      · exact Or.inr h4
  | case5 visited currentId rest h1 h2 current h3 ih =>
    intro hfalse hs H2 x hx hreach
    rw [bfsReach_cons_some st sourceId visited currentId rest current h1 h2 h3] at hfalse
    have hs2 : sourceId ∉ currentId :: visited := by
      intro hmem
      rcases List.mem_cons.mp hmem with heq | hmem2
      · exact h1 heq.symm
      · exact hs hmem2
    have H2n : ∀ v ∈ currentId :: visited, ∀ e, findById st v = some e →
        ∀ r ∈ e.relations, r.type ∈ DEPENDENCY_RELATIONS →
        r.target ∈ currentId :: visited ∨
          r.target ∈ rest ++ (current.relations.filter fun rel =>
              decide (rel.type ∈ DEPENDENCY_RELATIONS) &&
              decide (rel.target ∉ currentId :: visited)).map (fun rel => rel.target) := by
      intro v hv e he r hr hd
      rcases List.mem_cons.mp hv with heq | hv2
      · rw [heq, h3] at he
        obtain rfl : current = e := Option.some.inj he
        by_cases hin : r.target ∈ currentId :: visited
        · exact Or.inl hin
        · refine Or.inr (List.mem_append_right _ ?_)
          refine List.mem_map.mpr ⟨r, ?_, rfl⟩
          refine List.mem_filter.mpr ⟨hr, ?_⟩
          simp [hd, hin]
      · rcases H2 v hv2 e he r hr hd with h | h
        · exact Or.inl (List.mem_cons_of_mem _ h)
        · rcases List.mem_cons.mp h with heq2 | h4
          · exact Or.inl (by simp [heq2])
          · exact Or.inr (List.mem_append_left _ h4)
    refine ih hfalse hs2 H2n x ?_ hreach
    rcases hx with h | h
    · exact Or.inl (List.mem_cons_of_mem _ h)
    · rcases List.mem_cons.mp h with heq | h4
      · exact Or.inl (by simp [heq])
      · exact Or.inr (List.mem_append_left _ h4)

/-- `wouldCreateCycle` decides dependency-edge reachability of the source
from the target, for dependency-forming relation types. -/
theorem wouldCreateCycle_iff (st : List Entity) (sourceId targetId relationType : String)
    (hdep : relationType ∈ DEPENDENCY_RELATIONS) :
    wouldCreateCycle st sourceId targetId relationType = true ↔
      DepReach st targetId sourceId := by
  unfold wouldCreateCycle
  rw [if_pos hdep]
  constructor
  · intro h
    obtain ⟨q, hq, hreach⟩ := bfs_sound st sourceId [] [targetId] h
    obtain rfl : q = targetId := by simpa using hq
    exact hreach
  · intro hreach
    by_contra hfalse
    have hf : bfsReach st sourceId [] [targetId] = false := by
      cases hb : bfsReach st sourceId [] [targetId]
      · rfl
      · exact absurd hb hfalse
    exact bfsReach_false_inv st sourceId [] [targetId] hf (by simp)
      (by intro v hv; exact absurd hv (List.not_mem_nil v))
      targetId (Or.inr (by simp)) hreach

/-- A relations-only payload whose array revalidates makes `updatePlan`
succeed, carrying the validated array. -/
theorem updatePlan_relations_only (gs : List Gov) (st : List Entity) (entity : Entity)
    (now : String) (rs out : List Relation)
    (hmap : rs.mapM (fun rel => validateRelation st rel entity.type) = .ok out) :
    ∃ au, updatePlan gs st entity { relations := some rs } now = .ok au ∧
      au.relations = some out := by
  simp only [updatePlan, planTitle, planBody, planStatus, planPriority, planGov,
    planRelations, planLocation, planActionIdea, planMetadata, Except.bind, hmap]
  split_ifs <;> first
    | exact ⟨_, rfl, rfl⟩
    | (exfalso; simp_all)

/-- C1: for a dependency-forming relation type and distinct source and
target, `link` fails with the cycle error exactly when the source is
reachable from the target along dependency-forming edges; when it is not,
`link` is the plain `addRelation`, and with an otherwise valid edge (source
found, edge validating, not a duplicate, stored array revalidating) it
succeeds and appends exactly that edge; for non-dependency relation types no
cycle check is performed and `link` is the plain `addRelation`. -/
theorem claim_C1_cycle_prevention (gs : List Gov) (st : List Entity)
    (S r T now : String) (hdep : r ∈ DEPENDENCY_RELATIONS) (hne : S ≠ T) :
    (DepReach st T S → link gs st S r T now = (.error .cycle, st)) ∧
    (¬ DepReach st T S → link gs st S r T now = addRelation gs st S r T now) ∧
    (¬ DepReach st T S → ∀ entity out, IdsNodup st → findById st S = some entity →
      validateRelation st { type := r, target := T } entity.type =
        .ok { type := r, target := T } →
      entity.relations.any (fun x => x.type == r && x.target == T) = false →
      (entity.relations ++ [({ type := r, target := T } : Relation)]).mapM
          (fun rel => validateRelation st rel entity.type) = .ok out →
      ∃ e2 st2, link gs st S r T now = (.ok (some e2), st2) ∧
        e2.relations = entity.relations ++ [{ type := r, target := T }]) ∧
    (∀ r2, r2 ∉ DEPENDENCY_RELATIONS →
      link gs st S r2 T now = addRelation gs st S r2 T now) := by
  have hnocycle : ∀ hnr : ¬ DepReach st T S,
      link gs st S r T now = addRelation gs st S r T now := by
    intro hnr
    unfold link
    rw [if_neg hne, if_pos hdep,
      if_neg (fun h => hnr ((wouldCreateCycle_iff st S T r hdep).mp h))]
  refine ⟨?_, hnocycle, ?_, ?_⟩
  · intro hreach
    unfold link
    rw [if_neg hne, if_pos hdep,
      if_pos ((wouldCreateCycle_iff st S T r hdep).mpr hreach)]
  · intro hnr entity out hnodup hS hv hdup hmap
    rw [hnocycle hnr]
    have hchar : addRelation gs st S r T now = addRelationTo gs st S entity r T now := by
      unfold addRelation
      rw [hS]
    rw [hchar, addRelationTo_ok_case hv, if_neg (by simp [hdup])]
    obtain ⟨au, hplan, haurels⟩ := updatePlan_relations_only gs st entity now _ out hmap
    rw [update_found _ now hS, updateFound_ok hnodup hS hplan]
    refine ⟨applyUpdates entity au now, _, rfl, ?_⟩
    have hout : out = entity.relations ++ [{ type := r, target := T }] :=
      mapM_validateRelation_id hmap
    show au.relations.getD entity.relations = _
    rw [haurels, hout]
    rfl
  · intro r2 h2
    unfold link
    rw [if_neg hne, if_neg h2]

/-- C1 (witness): on `linkStore` (`ga-a depends_on ga-b`),
`link(ga-b, depends_on, ga-a)` fails with the cycle error, while
`link(ga-b, depends_on, ga-c)` to the unrelated `ga-c` succeeds and appends
the edge. -/
theorem claim_C1_cycle_prevention_witness :
    link [] linkStore "ga-b" "depends_on" "ga-a" "t1" = (.error .cycle, linkStore) ∧
    (∃ e2 st2, link [] linkStore "ga-b" "depends_on" "ga-c" "t1" = (.ok (some e2), st2) ∧
      e2.relations = cycB.relations ++ [{ type := "depends_on", target := "ga-c" }]) := by
  constructor
  · exact (claim_C1_cycle_prevention [] linkStore "ga-b" "depends_on" "ga-a" "t1"
      (by decide) (by decide)).1
      (DepReach.step cycA rfl ⟨"depends_on", "ga-b"⟩ (by decide) (by decide) rfl
        (DepReach.refl "ga-b"))
  · have hnr : ¬ DepReach linkStore "ga-c" "ga-b" := by
      intro h
      rcases DepReach_inv h with heq | ⟨e, he, rel, hr, hd, hb⟩
      · exact absurd heq (by decide)
      · have he2 : findById linkStore "ga-c" = some linkC := by rfl
        rw [he2] at he
        obtain rfl : linkC = e := Option.some.inj he
        simp [linkC] at hr
    exact (claim_C1_cycle_prevention [] linkStore "ga-b" "depends_on" "ga-c" "t1"
      (by decide) (by decide)).2.2.1 hnr cycB
      [{ type := "depends_on", target := "ga-c" }]
      (by decide) rfl (by rfl) (by rfl) (by rfl)
